import Mathlib

/-!
Operator-side ceremony switch of ssv-dkg (`pkgs/operator/state.go`)

A shallow embedding of the `Switch` registry: its two Go maps, the sweep
`CleanInstances`, admission `InitInstance` (with `CreateInstance`) and the
`/dkg` router `ProcessMessage`, followed by theorems about them.

Conventions of the embedding
* A Go `map[K]V` is a list of key/value pairs with pairwise distinct keys.
  `range` visits the pairs in list order; as Go leaves the order unspecified,
  statements quantified over every map cover every visiting order.
* `time.Time` is an integer count of nanoseconds; `time.Now()` is read from a
  clock `clk : Nat → Time`, where `clk i` is the value of the `i`-th reading
  made during one call.
* Code of the packages `wire`, `crypto`, `spec` and `dkg` is external to this
  development: it is taken as the fields of `Env`.
* A receive on an empty channel never returns in a sequential run: it is the
  outcome `blocked`.
* `Logger` and `Mtx` are not modelled: calls run one after the other.
-/

namespace SsvDkg

/-! ## Go maps -/

/-- A Go map: key/value pairs with pairwise distinct keys. -/
structure GoMap (K V : Type) where
  entries : List (K × V)
  nodup : (entries.map Prod.fst).Nodup

namespace GoMap

variable {K V : Type} [DecidableEq K]

/-- Result of `make(map[K]V, n)`: no entries. -/
def empty : GoMap K V := ⟨[], List.nodup_nil⟩

/-- Go `len(m)`. -/
def len (m : GoMap K V) : Nat := m.entries.length

/-- The keys, in visiting order. -/
def keys (m : GoMap K V) : List K := m.entries.map Prod.fst

/-- Go `v, ok := m[k]`. -/
def get? (m : GoMap K V) (k : K) : Option V :=
  (m.entries.find? (fun e => decide (e.1 = k))).map Prod.snd

/-- Go `delete(m, k)`. -/
def delete (m : GoMap K V) (k : K) : GoMap K V :=
  ⟨m.entries.filter (fun e => decide (e.1 ≠ k)),
    (List.filter_sublist m.entries).map Prod.fst |>.nodup m.nodup⟩

/-- Go `m[k] = v`. -/
def set (m : GoMap K V) (k : K) (v : V) : GoMap K V :=
  ⟨(k, v) :: m.entries.filter (fun e => decide (e.1 ≠ k)), by
    rw [List.map_cons, List.nodup_cons]
    refine ⟨?_, (List.filter_sublist m.entries).map Prod.fst |>.nodup m.nodup⟩
    intro h
    obtain ⟨e, he, hk⟩ := List.mem_map.1 h
    have := (List.mem_filter.1 he).2
    simp only [decide_eq_true_eq] at this
    exact this hk⟩

/-- A write through the pointer stored under `k`: the value under `k` becomes
`v`, the map itself (keys, order) is untouched. -/
def mutate (m : GoMap K V) (k : K) (v : V) : GoMap K V :=
  ⟨m.entries.map (fun e => if e.1 = k then (e.1, v) else e), by
    have h : (m.entries.map (fun e => if e.1 = k then (e.1, v) else e)).map Prod.fst
        = m.entries.map Prod.fst := by
      rw [List.map_map]
      apply List.map_congr_left
      intro e _
      by_cases hk : e.1 = k <;> simp [hk]
    rw [h]
    exact m.nodup⟩

/-- The map without the keys of a list: what a run of `delete` leaves. -/
def deleteAll (m : GoMap K V) (ks : List K) : GoMap K V :=
  ⟨m.entries.filter (fun e => decide (e.1 ∉ ks)),
    (List.filter_sublist m.entries).map Prod.fst |>.nodup m.nodup⟩

end GoMap

/-! ## Time -/

/-- A `time.Time` instant, in nanoseconds since the Unix epoch. -/
abbrev Time := Int

/-- Go `time.Minute`, a `time.Duration` in nanoseconds. -/
def Minute : Int := 60 * 1000000000

/-- The zero `time.Time` (January 1, year 1, 00:00:00 UTC), read from a map
for a key that is absent. -/
def zeroTime : Time := -62135596800 * 1000000000

/-- Go `t.Add(d)`. -/
def Time.Add (t : Time) (d : Int) : Time := t + d

/-- Go `t.Before(u)`. -/
def Time.Before (t u : Time) : Bool := decide (t < u)

/-- Go `t.After(u)`. -/
def Time.After (t u : Time) : Bool := decide (u < t)

/-! ## Constants and wire types -/

def MaxInstances : Nat := 1024

def MaxInstanceTime : Int := 5 * Minute

abbrev Bytes := List (Fin 256)

/-- Go `InstanceID [24]byte`, as the number its 24 bytes spell. -/
abbrev InstanceID := Fin (256 ^ 24)

/-- Go `rsa.PublicKey`. -/
structure RSAPublicKey where
  N : Nat
  E : Nat
deriving DecidableEq, Repr

/-- Go `rsa.PrivateKey`. -/
structure RSAPrivateKey where
  PublicKey : RSAPublicKey
  D : Nat
deriving DecidableEq, Repr

/-- Go `wire.Operator`. -/
structure Operator where
  ID : Nat
  PubKey : Bytes
deriving DecidableEq, Repr

/-- Go `wire.Init`. -/
structure Init where
  Operators : List Operator
  T : Nat
  WithdrawalCredentials : Bytes
  Fork : Bytes
  Owner : Bytes
  Nonce : Nat
deriving DecidableEq, Repr

/-- Go `wire.TransportType`, by its discriminant. -/
abbrev TransportType := Nat

/-- Go `wire.Transport`. -/
structure Transport where
  Type_ : TransportType
  Identifier : InstanceID
  Data : Bytes
  Version : Bytes
deriving DecidableEq, Repr

/-- Go `wire.SignedTransport`. -/
structure SignedTransport where
  Message : Transport
  Signer : Bytes
  Signature : Bytes
deriving DecidableEq, Repr

/-- Go `wire.MultipleSignedTransports`. -/
structure MultipleSignedTransports where
  Identifier : InstanceID
  Messages : List SignedTransport
  Signature : Bytes
deriving DecidableEq, Repr

/-! ## Errors and outcomes -/

/-- Errors of `(*instWrapper).VerifyInitiatorMessage`. -/
inductive VerifyErr where
  /-- Error of `crypto.EncodeRSAPublicKey`, returned as is. -/
  | encode (e : String)
  /-- Text `failed to verify a message from initiator: %x`, with the encoded key. -/
  | failed (pubKey : Bytes)
deriving DecidableEq, Repr

/-- Errors returned by the methods of `Switch`; one constructor for each
`fmt.Errorf` site or sentinel of `utils`. -/
inductive Err where
  /-- Text `wrong version: remote %s local %s`. -/
  | wrongVersion (remote loc : Bytes)
  /-- Text `init: failed to unmarshal init message: %s`. -/
  | initUnmarshal (e : String)
  /-- Error of `spec.ValidateInitMessage`, returned as is. -/
  | validation (e : String)
  /-- Text `init: failed parse initiator public key: %s`. -/
  | initParseKey (e : String)
  /-- Text `init: failed to marshal transport message: %s`. -/
  | initMarshal (e : String)
  /-- Text `init: initiator signature isn't valid: %s`. -/
  | initSignature (e : String)
  /-- Sentinel `utils.ErrMaxInstances`. -/
  | ErrMaxInstances
  /-- Sentinel `utils.ErrAlreadyExists`. -/
  | ErrAlreadyExists
  /-- Text `init: failed to create instance: %s`. -/
  | initCreate (e : String)
  /-- Sentinel `utils.ErrMissingInstance`. -/
  | ErrMissingInstance
  /-- Text `process message: failed to unmarshal dkg message: %s`. -/
  | pmUnmarshal (e : String)
  /-- Text `process message: failed to marshal message: %s`. -/
  | pmMarshal (e : String)
  /-- Text `process message: failed to verify initiator signature: %s`. -/
  | pmVerify (e : VerifyErr)
  /-- Text `process message: failed to process dkg message: %s`. -/
  | pmProcess (e : String)
deriving DecidableEq, Repr

/-- How a call ends: it returns a value, returns an error, or waits for ever
on a channel that nothing fills. -/
inductive Outcome (ε α : Type) where
  | ret (v : α)
  | err (e : ε)
  | blocked
deriving DecidableEq, Repr

/-! ## Instances and the switch -/

/-- Go `dkg.OwnerOpts`, the fields that are data. The fields `Logger`,
`BroadcastF`, `Signer`, `EncryptFunc`, `DecryptFunc` and `Suite` are functions
fixed by the switch. -/
structure OwnerOpts where
  reqID : InstanceID
  ID : Nat
  InitiatorPublicKey : RSAPublicKey
  OperatorPublicKey : RSAPublicKey
  Version : Bytes
deriving DecidableEq, Repr

/-- Go `instWrapper`. `LocalOwner` is the state of the embedded
`*dkg.LocalOwner` together with the content of the channels `respChan` and
`errChan`, which only the owner writes. -/
structure instWrapper (LocalOwner : Type) where
  LocalOwner : LocalOwner
  InitiatorPublicKey : RSAPublicKey
deriving DecidableEq, Repr

/-- Go `Switch`. An instance is stored by value: a write through the pointer
kept in `Instances` is `GoMap.mutate`. -/
structure Switch (LocalOwner : Type) where
  InstanceInitTime : GoMap InstanceID Time
  Instances : GoMap InstanceID (instWrapper LocalOwner)
  PrivateKey : RSAPrivateKey
  Version : Bytes
  PubKeyBytes : Bytes
  OperatorID : Nat

/-- The functions of the packages `wire`, `crypto`, `spec` and `dkg` that
`state.go` calls. An `Option String` result is a Go `error`: `none` is `nil`. -/
structure Env (LocalOwner : Type) where
  /-- Go `(*wire.Init).UnmarshalSSZ`. -/
  InitUnmarshalSSZ : Bytes → Except String Init
  /-- Go `spec.ValidateInitMessage`. -/
  ValidateInitMessage : Init → Option String
  /-- Go `crypto.ParseRSAPublicKey`. -/
  ParseRSAPublicKey : Bytes → Except String RSAPublicKey
  /-- Go `crypto.EncodeRSAPublicKey`. -/
  EncodeRSAPublicKey : RSAPublicKey → Except String Bytes
  /-- Go `crypto.VerifyRSA`. -/
  VerifyRSA : RSAPublicKey → Bytes → Bytes → Option String
  /-- Go `(*wire.Transport).MarshalSSZ`. -/
  TransportMarshalSSZ : Transport → Except String Bytes
  /-- Go `(*wire.SignedTransport).MarshalSSZ`. -/
  SignedTransportMarshalSSZ : SignedTransport → Except String Bytes
  /-- Go `(*wire.MultipleSignedTransports).UnmarshalSSZ`. -/
  MultipleUnmarshalSSZ : Bytes → Except String MultipleSignedTransports
  /-- Go `spec.OperatorIDByPubKey`. -/
  OperatorIDByPubKey : List Operator → Bytes → Except String Nat
  /-- Go `dkg.New`, with a fresh channel of capacity 1 behind `BroadcastF`. -/
  New : OwnerOpts → LocalOwner
  /-- Go `(*dkg.LocalOwner).Init`. -/
  OwnerInit : LocalOwner → InstanceID → Init → Except String (Transport × LocalOwner)
  /-- Go `(*dkg.LocalOwner).Broadcast`. -/
  OwnerBroadcast : LocalOwner → Transport → Except String LocalOwner
  /-- Go `(*dkg.LocalOwner).Process`; the owner may change also when it fails. -/
  OwnerProcess : LocalOwner → SignedTransport → Option String × LocalOwner
  /-- A receive from the channel behind `BroadcastF` (`bchan`, `respChan`):
  `none` when the channel is empty. -/
  recv : LocalOwner → Option (Bytes × LocalOwner)

section Code

variable {LocalOwner : Type}

/-- Go `(*instWrapper).VerifyInitiatorMessage`; `none` is a `nil` error. -/
def instWrapper.VerifyInitiatorMessage (env : Env LocalOwner) (iw : instWrapper LocalOwner)
    (msg sig : Bytes) : Option VerifyErr :=
  match env.EncodeRSAPublicKey iw.InitiatorPublicKey with
  | .error e => some (.encode e)
  | .ok pubKey =>
    match env.VerifyRSA iw.InitiatorPublicKey msg sig with
    | some _ => some (.failed pubKey)
    | none => none

/-- Go `(*instWrapper).ReadResponse`: `<-iw.respChan`. -/
def instWrapper.ReadResponse (env : Env LocalOwner) (iw : instWrapper LocalOwner) :
    Option (Bytes × instWrapper LocalOwner) :=
  match env.recv iw.LocalOwner with
  | none => none
  | some (b, o) => some (b, { iw with LocalOwner := o })

/-- Go `(*instWrapper).Process`, promoted from the embedded `*dkg.LocalOwner`. -/
def instWrapper.Process (env : Env LocalOwner) (iw : instWrapper LocalOwner)
    (ts : SignedTransport) : Option String × instWrapper LocalOwner :=
  ((env.OwnerProcess iw.LocalOwner ts).1,
    { iw with LocalOwner := (env.OwnerProcess iw.LocalOwner ts).2 })

/-- Go `NewSwitch`. -/
def NewSwitch (pv : RSAPrivateKey) (ver pkBytes : Bytes) (id : Nat) : Switch LocalOwner :=
  { InstanceInitTime := GoMap.empty
    Instances := GoMap.empty
    PrivateKey := pv
    Version := ver
    PubKeyBytes := pkBytes
    OperatorID := id }

/-- Go `(*Switch).CreateInstance`. -/
def Switch.CreateInstance (env : Env LocalOwner) (s : Switch LocalOwner) (reqID : InstanceID)
    (init : Init) (initiatorPublicKey : RSAPublicKey) :
    Outcome String (instWrapper LocalOwner × Bytes) :=
  match env.OperatorIDByPubKey init.Operators s.PubKeyBytes with
  | .error e => .err e
  | .ok operatorID =>
    if s.OperatorID ≠ operatorID then .err "wrong operator ID"
    else
      let owner := env.New
        { reqID := reqID
          ID := operatorID
          InitiatorPublicKey := initiatorPublicKey
          OperatorPublicKey := s.PrivateKey.PublicKey
          Version := s.Version }
      match env.OwnerInit owner reqID init with
      | .error e => .err e
      | .ok (resp, owner1) =>
        match env.OwnerBroadcast owner1 resp with
        | .error e => .err e
        | .ok owner2 =>
          match env.recv owner2 with
          | none => .blocked
          | some (res, owner3) => .ret (⟨owner3, initiatorPublicKey⟩, res)

/-- The body of the `range` loop of `CleanInstances`, run over the pairs that
the loop has still to visit. `tick` counts the clock readings made so far. -/
def cleanLoop (clk : Nat → Time) :
    List (InstanceID × Time) → Nat → Switch LocalOwner → Nat → Nat × Switch LocalOwner × Nat
  | [], tick, s, count => (count, s, tick)
  | (id, instime) :: rest, tick, s, count =>
    if (clk tick).After (instime.Add MaxInstanceTime) then
      cleanLoop clk rest (tick + 1)
        { s with Instances := s.Instances.delete id
                 InstanceInitTime := s.InstanceInitTime.delete id }
        (count + 1)
    else
      cleanLoop clk rest (tick + 1) s count

/-- Go `(*Switch).CleanInstances`: the count, the switch afterwards and the
number of clock readings made. -/
def Switch.CleanInstances (clk : Nat → Time) (tick : Nat) (s : Switch LocalOwner) :
    Nat × Switch LocalOwner × Nat :=
  cleanLoop clk s.InstanceInitTime.entries tick s 0

/-- The test of `InitInstance` for an entry under `reqID`
(`_, ok := s.Instances[reqID]` up to the `s.Mtx.Unlock()` before
`CreateInstance`), entered after `tick` clock readings: the error returned
there, if any, the switch at the unlock and the number of clock
readings made. -/
def Switch.checkExisting (clk : Nat → Time) (tick : Nat) (s : Switch LocalOwner)
    (reqID : InstanceID) : Option Err × Switch LocalOwner × Nat :=
  match s.Instances.get? reqID with
  | some _ =>
    let tm := (s.InstanceInitTime.get? reqID).getD zeroTime
    if (clk tick).Before (tm.Add MaxInstanceTime) then
      (some .ErrAlreadyExists, s, tick + 1)
    else
      (none,
        { s with Instances := s.Instances.delete reqID
                 InstanceInitTime := s.InstanceInitTime.delete reqID },
        tick + 1)
  | none => (none, s, tick)

/-- The part of `InitInstance` between `s.Mtx.Lock()` and the `s.Mtx.Unlock()`
before `CreateInstance`: the saturation test with its sweep, then the test
for an entry under `reqID`. -/
def Switch.lockedSection (clk : Nat → Time) (s : Switch LocalOwner) (reqID : InstanceID) :
    Option Err × Switch LocalOwner × Nat :=
  let l := s.Instances.len
  if l ≥ MaxInstances then
    let r := s.CleanInstances clk 0
    let cleaned := r.1
    if (l : Int) - (cleaned : Int) ≥ (MaxInstances : Int) then
      (some .ErrMaxInstances, r.2.1, r.2.2)
    else
      r.2.1.checkExisting clk r.2.2 reqID
  else
    s.checkExisting clk 0 reqID

/-- The part of `InitInstance` from `s.Mtx.Lock()` to its end: the locked
section, then `CreateInstance` on the switch as it is at the unlock, then the
two map writes under the lock taken again. -/
def Switch.register (env : Env LocalOwner) (clk : Nat → Time) (s : Switch LocalOwner)
    (reqID : InstanceID) (init : Init) (initiatorPubKey : RSAPublicKey) :
    Outcome Err Bytes × Switch LocalOwner :=
  match s.lockedSection clk reqID with
  | (some e, s1, _) => (.err e, s1)
  | (none, s1, tick) =>
    match s1.CreateInstance env reqID init initiatorPubKey with
    | .err e => (.err (.initCreate e), s1)
    | .blocked => (.blocked, s1)
    | .ret (inst, resp) =>
      (.ret resp,
        { s1 with Instances := s1.Instances.set reqID inst
                  InstanceInitTime := s1.InstanceInitTime.set reqID (clk tick) })

/-- Go `(*Switch).InitInstance`: what the call returns and the switch
afterwards. -/
def Switch.InitInstance (env : Env LocalOwner) (clk : Nat → Time) (s : Switch LocalOwner)
    (reqID : InstanceID) (initMsg : Transport) (initiatorPub initiatorSignature : Bytes) :
    Outcome Err Bytes × Switch LocalOwner :=
  if initMsg.Version ≠ s.Version then
    (.err (.wrongVersion initMsg.Version s.Version), s)
  else
    match env.InitUnmarshalSSZ initMsg.Data with
    | .error e => (.err (.initUnmarshal e), s)
    | .ok init =>
      match env.ValidateInitMessage init with
      | some e => (.err (.validation e), s)
      | none =>
        match env.ParseRSAPublicKey initiatorPub with
        | .error e => (.err (.initParseKey e), s)
        | .ok initiatorPubKey =>
          match env.TransportMarshalSSZ initMsg with
          | .error e => (.err (.initMarshal e), s)
          | .ok marshalledWireMsg =>
            match env.VerifyRSA initiatorPubKey marshalledWireMsg initiatorSignature with
            | some e => (.err (.initSignature e), s)
            | none => s.register env clk reqID init initiatorPubKey

/-- A call that `ProcessMessage` makes on the instance registered under `id`. -/
inductive Event where
  | Process (id : InstanceID) (ts : SignedTransport)
  | ReadResponse (id : InstanceID)
deriving DecidableEq, Repr

/-- The first loop of `ProcessMessage`: `mltplMsgsBytes` after the messages
still to visit have been marshalled and appended. -/
def marshalLoop (env : Env LocalOwner) : List SignedTransport → Bytes → Except String Bytes
  | [], mltplMsgsBytes => .ok mltplMsgsBytes
  | ts :: rest, mltplMsgsBytes =>
    match env.SignedTransportMarshalSSZ ts with
    | .error e => .error e
    | .ok tsBytes => marshalLoop env rest (mltplMsgsBytes ++ tsBytes)

/-- The second loop of `ProcessMessage`: the error that stops it, if any,
the instance afterwards and the calls made, appended to those made before. -/
def processLoop (env : Env LocalOwner) (id : InstanceID) :
    List SignedTransport → instWrapper LocalOwner → List Event →
      Option String × instWrapper LocalOwner × List Event
  | [], inst, trace => (none, inst, trace)
  | ts :: rest, inst, trace =>
    match inst.Process env ts with
    | (some e, inst1) => (some e, inst1, trace ++ [Event.Process id ts])
    | (none, inst1) => processLoop env id rest inst1 (trace ++ [Event.Process id ts])

/-- Go `(*Switch).ProcessMessage`: what the call returns, the switch
afterwards and the calls made on the instance, in order. -/
def Switch.ProcessMessage (env : Env LocalOwner) (s : Switch LocalOwner) (dkgMsg : Bytes) :
    Outcome Err Bytes × Switch LocalOwner × List Event :=
  match env.MultipleUnmarshalSSZ dkgMsg with
  | .error e => (.err (.pmUnmarshal e), s, [])
  | .ok st =>
    let id := st.Identifier
    match s.Instances.get? id with
    | none => (.err .ErrMissingInstance, s, [])
    | some inst =>
      match marshalLoop env st.Messages [] with
      | .error e => (.err (.pmMarshal e), s, [])
      | .ok mltplMsgsBytes =>
        match inst.VerifyInitiatorMessage env mltplMsgsBytes st.Signature with
        | some e => (.err (.pmVerify e), s, [])
        | none =>
          match processLoop env id st.Messages inst [] with
          | (some e, inst1, trace) =>
            (.err (.pmProcess e), { s with Instances := s.Instances.mutate id inst1 }, trace)
          | (none, inst1, trace) =>
            match inst1.ReadResponse env with
            | none =>
              (.blocked, { s with Instances := s.Instances.mutate id inst1 },
                trace ++ [Event.ReadResponse id])
            | some (resp, inst2) =>
              (.ret resp, { s with Instances := s.Instances.mutate id inst2 },
                trace ++ [Event.ReadResponse id])

/-- A call on the switch, with what it meets: the outer world `env` and the
clock readings `clk` of that call. -/
inductive Call (LocalOwner : Type) where
  | InitInstance (env : Env LocalOwner) (clk : Nat → Time) (reqID : InstanceID)
      (initMsg : Transport) (initiatorPub initiatorSignature : Bytes)
  | CleanInstances (clk : Nat → Time)

/-- The switch after one call. -/
def Call.exec (s : Switch LocalOwner) : Call LocalOwner → Switch LocalOwner
  | .InitInstance env clk reqID initMsg initiatorPub initiatorSignature =>
    (s.InitInstance env clk reqID initMsg initiatorPub initiatorSignature).2
  | .CleanInstances clk => (s.CleanInstances clk 0).2.1

/-- The switch after the calls of a list, made one after the other. -/
def runCalls (s : Switch LocalOwner) (calls : List (Call LocalOwner)) : Switch LocalOwner :=
  calls.foldl Call.exec s

/-! ## Notions used to state the properties -/

/-- The two maps of the switch have the same keys. -/
def Switch.keysAgree (s : Switch LocalOwner) : Prop :=
  (∀ id ∈ s.Instances.keys, id ∈ s.InstanceInitTime.keys) ∧
    (∀ id ∈ s.InstanceInitTime.keys, id ∈ s.Instances.keys)

instance (s : Switch LocalOwner) : Decidable s.keysAgree :=
  @instDecidableAnd _ _ (List.decidableBAll _ s.Instances.keys)
    (List.decidableBAll _ s.InstanceInitTime.keys)

/-- An instance created at `t` is older than `MaxInstanceTime` at `now`. -/
def stale (now t : Time) : Prop := now - t > MaxInstanceTime

instance (now t : Time) : Decidable (stale now t) :=
  inferInstanceAs (Decidable (_ > _))

/-- An init message passes the checks that `InitInstance` makes before it
takes the lock: the version check, decoding and validation of the payload,
and the check of the signature of the initiator. `init` is the decoded
payload and `initiatorPubKey` the parsed key. -/
def passesChecks (env : Env LocalOwner) (s : Switch LocalOwner) (initMsg : Transport)
    (initiatorPub initiatorSignature : Bytes) (init : Init) (initiatorPubKey : RSAPublicKey) :
    Prop :=
  initMsg.Version = s.Version ∧
    env.InitUnmarshalSSZ initMsg.Data = .ok init ∧
    env.ValidateInitMessage init = none ∧
    env.ParseRSAPublicKey initiatorPub = .ok initiatorPubKey ∧
    (∃ marshalledWireMsg, env.TransportMarshalSSZ initMsg = .ok marshalledWireMsg ∧
      env.VerifyRSA initiatorPubKey marshalledWireMsg initiatorSignature = none)

/-- The instance after `Process` has been called on the messages of a list,
one after the other. -/
def instAfter (env : Env LocalOwner) (inst : instWrapper LocalOwner)
    (msgs : List SignedTransport) : instWrapper LocalOwner :=
  msgs.foldl (fun i ts => (i.Process env ts).2) inst

/-- The list `parts` holds, place by place, the bytes that the messages of
`msgs` marshal to. -/
def reserialized (env : Env LocalOwner) (msgs : List SignedTransport) (parts : List Bytes) :
    Prop :=
  List.Forall₂ (fun ts b => env.SignedTransportMarshalSSZ ts = .ok b) msgs parts

/-- The ids that the loop of `CleanInstances` deletes, in visiting order. -/
def staleIds (clk : Nat → Time) : List (InstanceID × Time) → Nat → List InstanceID
  | [], _ => []
  | (id, instime) :: rest, tick =>
    if (clk tick).After (instime.Add MaxInstanceTime) then id :: staleIds clk rest (tick + 1)
    else staleIds clk rest (tick + 1)

/-- The switch with the ids of a list deleted from both maps. -/
def Switch.deleteAll (s : Switch LocalOwner) (ids : List InstanceID) : Switch LocalOwner :=
  { s with Instances := s.Instances.deleteAll ids
           InstanceInitTime := s.InstanceInitTime.deleteAll ids }

end Code

/-! ## Result saving -/

/-- Go `wire.ResultData`. -/
structure ResultData where
  Operators : List Operator
  Identifier : InstanceID
  DepositData : Bytes
  KeysharesData : Bytes
  Proofs : Bytes
deriving DecidableEq, Repr

/-- Go `wire.DepositDataCLI`: the field that `SaveResultData` reads. -/
structure DepositDataCLI where
  WithdrawalCredentials : String
deriving DecidableEq, Repr

/-- Go element type of `wire.KeySharesCLI.Shares`: the fields that
`SaveResultData` reads. -/
structure Data where
  OwnerNonce : Nat
  OwnerAddress : String
deriving DecidableEq, Repr

/-- Go `wire.KeySharesCLI`: the field that `SaveResultData` reads. -/
structure KeySharesCLI where
  Shares : List Data
deriving DecidableEq, Repr

/-- Go `wire.SignedProof`, kept as bytes: `SaveResultData` reads no field. -/
structure SignedProof where
  raw : Bytes
deriving DecidableEq, Repr

/-- Modelled from the spec: the constant `wire.ResultMessageType`, missing
from the sources; the spec gives the discriminant `4=result`. -/
def ResultMessageType : TransportType := 4

/-- Modelled from the spec: the constant `crypto.ETH1WithdrawalPrefixByte`,
missing from the sources; the spec gives the ETH1 withdrawal prefix `0x01`. -/
def ETH1WithdrawalPrefixByte : Fin 256 := 1

/-- Errors returned by `VerifyIncomingMessage` and `SaveResultData`; one
constructor for each `return` of an error. -/
inductive ResultErr where
  /-- Error of `(*wire.ResultData).UnmarshalSSZ`, returned as is. -/
  | unmarshal (e : String)
  /-- Text `wrong message type %s expected %s`. -/
  | wrongType (got expected : TransportType)
  /-- Sentinel `utils.ErrMissingInstance`. -/
  | ErrMissingInstance
  /-- Error of `(*wire.Transport).MarshalSSZ`, returned as is. -/
  | marshal (e : String)
  /-- Error of `VerifyInitiatorMessage`, returned as is. -/
  | verify (e : VerifyErr)
  /-- Error of `spec.OperatorIDByPubKey`, returned as is. -/
  | operatorID (e : String)
  /-- Error of `json.Unmarshal` on the deposit data, returned as is. -/
  | jsonDeposit (e : String)
  /-- Error of `json.Unmarshal` on the key shares, returned as is. -/
  | jsonKeyshares (e : String)
  /-- Error of `json.Unmarshal` on the proofs, returned as is. -/
  | jsonProofs (e : String)
  /-- Text `failed to decode withdrawal credentials: %s`. -/
  | decodeCreds (e : String)
  /-- Text `invalid withdrawal prefix: %x`. -/
  | invalidPrefix (withdrawPrefix : Fin 256)
deriving DecidableEq, Repr

/-- A run-time panic of Go. -/
inductive Panic where
  /-- A field read through a nil pointer. -/
  | nilDereference
  /-- An index at or beyond the length of a slice. -/
  | indexOutOfRange
deriving DecidableEq, Repr

/-- The arguments that `SaveResultData` hands to `cli_utils.WriteResults`,
in their order, the logger left out. A pointer is an `Option`: `none` is
nil. -/
structure WriteArgs where
  depositDataArr : List (Option DepositDataCLI)
  keySharesArr : List (Option KeySharesCLI)
  proofsArr : List (List (Option SignedProof))
  arg4 : Bool
  arg5 : Nat
  ownerAddress : Bytes
  ownerNonce : Nat
  withdrawAddress : Bytes
  outputPath : String
deriving DecidableEq, Repr

/-- How `SaveResultData` ends: it returns an error of its own, or it calls
`cli_utils.WriteResults` on `args` and returns what that returns, or it
panics. -/
inductive SaveOutcome where
  | err (e : ResultErr)
  | written (args : WriteArgs) (res : Option String)
  | panic (p : Panic)
deriving DecidableEq, Repr

/-- The functions of other packages that only the result path calls. A
pointer result is an `Option`: `none` is nil. -/
structure ResultEnv where
  /-- Go `(*wire.ResultData).UnmarshalSSZ`. -/
  ResultDataUnmarshalSSZ : Bytes → Except String ResultData
  /-- Go `json.Unmarshal(data, &depJson)` with `depJson *wire.DepositDataCLI`. -/
  UnmarshalDepositData : Bytes → Except String (Option DepositDataCLI)
  /-- Go `json.Unmarshal(data, &ksJson)` with `ksJson *wire.KeySharesCLI`. -/
  UnmarshalKeyShares : Bytes → Except String (Option KeySharesCLI)
  /-- Go `json.Unmarshal(data, &proof)` with `proof []*wire.SignedProof`. -/
  UnmarshalProofs : Bytes → Except String (List (Option SignedProof))
  /-- Go `hex.DecodeString`. -/
  hexDecodeString : String → Except String Bytes
  /-- Go `crypto.ParseWithdrawalCredentials`. -/
  ParseWithdrawalCredentials : Bytes → Fin 256 × Bytes
  /-- Go `common.HexToAddress`. -/
  HexToAddress : String → Bytes
  /-- Go `common.BytesToAddress`. -/
  BytesToAddress : Bytes → Bytes
  /-- Go `cli_utils.WriteResults`. -/
  WriteResults : WriteArgs → Option String

section ResultCode

variable {LocalOwner : Type}

/-- Go `(*Switch).VerifyIncomingMessage`. -/
def Switch.VerifyIncomingMessage (env : Env LocalOwner) (renv : ResultEnv)
    (s : Switch LocalOwner) (incMsg : SignedTransport) : Except ResultErr Nat :=
  if incMsg.Message.Type_ ≠ ResultMessageType then
    .error (.wrongType incMsg.Message.Type_ ResultMessageType)
  else
    match renv.ResultDataUnmarshalSSZ incMsg.Message.Data with
    | .error e => .error (.unmarshal e)
    | .ok resData =>
      match s.Instances.get? resData.Identifier with
      | none => .error .ErrMissingInstance
      | some inst =>
        match env.TransportMarshalSSZ incMsg.Message with
        | .error e => .error (.marshal e)
        | .ok msgBytes =>
          match inst.VerifyInitiatorMessage env msgBytes incMsg.Signature with
          | some e => .error (.verify e)
          | none =>
            match env.OperatorIDByPubKey resData.Operators s.PubKeyBytes with
            | .error e => .error (.operatorID e)
            | .ok operatorID => .ok operatorID

/-- The part of `SaveResultData` after the three `json.Unmarshal` calls: the
read of `depJson.WithdrawalCredentials`, the check of the withdrawal prefix,
and the call of `cli_utils.WriteResults`, whose arguments are evaluated
first. -/
def saveResults (renv : ResultEnv) (depJson : Option DepositDataCLI)
    (ksJson : Option KeySharesCLI) (proof : List (Option SignedProof)) (outputPath : String) :
    SaveOutcome :=
  let depositDataArr := [depJson]
  let keySharesArr := [ksJson]
  let proofsArr := [proof]
  match depJson with
  | none => .panic .nilDereference
  | some dep =>
    match renv.hexDecodeString dep.WithdrawalCredentials with
    | .error e => .err (.decodeCreds e)
    | .ok withdrawCreds =>
      let withdrawPrefix := (renv.ParseWithdrawalCredentials withdrawCreds).1
      let withdrawAddress := (renv.ParseWithdrawalCredentials withdrawCreds).2
      if withdrawPrefix ≠ ETH1WithdrawalPrefixByte then
        .err (.invalidPrefix withdrawPrefix)
      else
        match ksJson with
        | none => .panic .nilDereference
        | some ks =>
          match ks.Shares with
          | [] => .panic .indexOutOfRange
          | share :: _ =>
            .written
              { depositDataArr := depositDataArr
                keySharesArr := keySharesArr
                proofsArr := proofsArr
                arg4 := true
                arg5 := 1
                ownerAddress := renv.HexToAddress share.OwnerAddress
                ownerNonce := share.OwnerNonce
                withdrawAddress := renv.BytesToAddress withdrawAddress
                outputPath := outputPath }
              (renv.WriteResults
                { depositDataArr := depositDataArr
                  keySharesArr := keySharesArr
                  proofsArr := proofsArr
                  arg4 := true
                  arg5 := 1
                  ownerAddress := renv.HexToAddress share.OwnerAddress
                  ownerNonce := share.OwnerNonce
                  withdrawAddress := renv.BytesToAddress withdrawAddress
                  outputPath := outputPath })

/-- Go `(*Switch).SaveResultData`. -/
def Switch.SaveResultData (env : Env LocalOwner) (renv : ResultEnv) (s : Switch LocalOwner)
    (incMsg : SignedTransport) (outputPath : String) : SaveOutcome :=
  match renv.ResultDataUnmarshalSSZ incMsg.Message.Data with
  | .error e => .err (.unmarshal e)
  | .ok resData =>
    match s.VerifyIncomingMessage env renv incMsg with
    | .error e => .err e
    | .ok _ =>
      match (if resData.DepositData.length ≠ 0 then
          renv.UnmarshalDepositData resData.DepositData else .ok none) with
      | .error e => .err (.jsonDeposit e)
      | .ok depJson =>
        match renv.UnmarshalKeyShares resData.KeysharesData with
        | .error e => .err (.jsonKeyshares e)
        | .ok ksJson =>
          match renv.UnmarshalProofs resData.Proofs with
          | .error e => .err (.jsonProofs e)
          | .ok proof => saveResults renv depJson ksJson proof outputPath

end ResultCode

/-! ## Validation of the init payload -/

/-- Modelled from the spec: the accepted operator counts of
`spec.ValidateInitMessage`, whose code is missing from the sources (its test
`spec/testing/init_test.go` is there). The spec gives the set as
`{4,7,10,13}`. -/
def validOperatorCount (n : Nat) : Bool :=
  n == 4 || n == 7 || n == 10 || n == 13

/-- Modelled from the spec: the order check of `spec.ValidateInitMessage`,
whose code is missing from the sources: "operators strictly ascending by id,
no duplicates", tested on each operator and the next one. -/
def UniqueAndOrderedOperators : List Operator → Bool
  | [] => true
  | [_] => true
  | a :: b :: rest => decide (a.ID < b.ID) && UniqueAndOrderedOperators (b :: rest)

/-- Modelled from the spec: `spec.ValidateInitMessage`, whose code is missing
from the sources (its test `spec/testing/init_test.go` is there). The four
checks of the init validator, in the order the spec lists them, with the error
texts the spec and the test give; `none` is no error. For the last check the
spec names no error: the text of its error kind for a schema violation is
used. -/
def ValidateInitMessage (init : Init) : Option String :=
  if ¬ validOperatorCount init.Operators.length then
    some "threshold set is invalid"
  else if ¬ UniqueAndOrderedOperators init.Operators then
    some "operators not unique or not ordered"
  else if init.T ≠ 2 * ((init.Operators.length - 1) / 3) + 1 then
    some "threshold set is invalid"
  else if init.WithdrawalCredentials.length ≠ 32 ∨ init.Fork.length ≠ 4
      ∨ init.Owner.length ≠ 20 then
    some "MalformedMessage"
  else
    none

/-- Modelled from the spec: the test fixture `fixtures.GenerateOperators(n)`,
missing from the sources: operators with the ids `1`, ..., `n`, as in the
scenario "Operators `[1,2,3,4]`" of the spec. -/
def GenerateOperators (n : Nat) : List Operator :=
  (List.range n).map (fun i => ⟨i + 1, [Fin.ofNat i]⟩)

/-- Modelled from the spec: an init payload of the test, with the fixture
values `TestWithdrawalCred` (32 bytes, first byte `0x01`), `TestFork` (4
bytes), `TestOwnerAddress` (20 bytes) and nonce 0. -/
def testInit (ops : List Operator) (t : Nat) : Init :=
  { Operators := ops
    T := t
    WithdrawalCredentials := 1 :: List.replicate 31 0
    Fork := [0, 0, 0, 0]
    Owner := List.replicate 20 0
    Nonce := 0 }

/-! ## Concrete data -/

/-- A four-operator payload. -/
def init4 : Init :=
  { Operators := [⟨1, [1]⟩, ⟨2, [2]⟩, ⟨3, [3]⟩, ⟨4, [4]⟩]
    T := 3
    WithdrawalCredentials := [1]
    Fork := [0, 0, 0, 0]
    Owner := []
    Nonce := 0 }

/-- A toy outer world. An owner is the number of messages waiting on its
channel. Every payload decodes to `init4` and is valid, every key parses to
the same key, a signature is good when it is the signed bytes themselves, a
transport marshals to its data, and `Process` fails on a message with empty
data. -/
def toyEnv (batch : MultipleSignedTransports) : Env Nat :=
  { InitUnmarshalSSZ := fun _ => .ok init4
    ValidateInitMessage := fun _ => none
    ParseRSAPublicKey := fun _ => .ok ⟨3233, 17⟩
    EncodeRSAPublicKey := fun _ => .ok [48]
    VerifyRSA := fun _ msg sig => if sig = msg then none else some "crypto/rsa: verification error"
    TransportMarshalSSZ := fun t => .ok t.Data
    SignedTransportMarshalSSZ := fun st => .ok st.Message.Data
    MultipleUnmarshalSSZ := fun _ => .ok batch
    OperatorIDByPubKey := fun _ _ => .ok 1
    New := fun _ => 0
    OwnerInit := fun o reqID _ => .ok (⟨2, reqID, [], []⟩, o)
    OwnerBroadcast := fun o _ => .ok (o + 1)
    OwnerProcess := fun o ts => if ts.Message.Data = [] then (some "empty", o) else (none, o + 1)
    recv := fun o => if o = 0 then none else some ([7], o - 1) }

/-- The toy outer world in which the key of the operator is found under
operator id 2, so that `CreateInstance` fails on a switch of operator 1. -/
def toyEnvWrongID : Env Nat :=
  { toyEnv ⟨5, [], []⟩ with OperatorIDByPubKey := fun _ _ => .ok 2 }

/-- An empty batch for ceremony 5. -/
def batch0 : MultipleSignedTransports := ⟨5, [], []⟩

/-- A switch of operator 1, version `[2]`, holding the instances listed. -/
def toySwitch (regs : GoMap InstanceID Time) (insts : GoMap InstanceID (instWrapper Nat)) :
    Switch Nat :=
  { InstanceInitTime := regs
    Instances := insts
    PrivateKey := ⟨⟨3233, 17⟩, 2753⟩
    Version := [2]
    PubKeyBytes := [48]
    OperatorID := 1 }

/-- A switch with the single ceremony 5, created at time 0. -/
def switch5 : Switch Nat :=
  toySwitch ((GoMap.empty).set 5 0) ((GoMap.empty).set 5 ⟨0, ⟨3233, 17⟩⟩)

/-- An init message of version `[2]` for ceremony 9, with data `[1]`. -/
def initMsg9 : Transport := ⟨1, 9, [1], [2]⟩

/-- A deal message for ceremony 5 with data `[1]`. -/
def msgA : SignedTransport := ⟨⟨3, 5, [1], [2]⟩, [], []⟩

/-- A deal message for ceremony 5 with data `[2]`. -/
def msgB : SignedTransport := ⟨⟨3, 5, [2], [2]⟩, [], []⟩

/-- A deal message for ceremony 5 with empty data, on which the toy
`Process` fails. -/
def msgEmpty : SignedTransport := ⟨⟨3, 5, [], [2]⟩, [], []⟩

/-- A batch for ceremony 5 with a good toy signature. -/
def batchGood : MultipleSignedTransports := ⟨5, [msgA, msgB], [1, 2]⟩

/-- The same batch with a signature that does not verify. -/
def batchForged : MultipleSignedTransports := ⟨5, [msgA, msgB], [9]⟩

/-- A batch with a good toy signature whose second message makes `Process`
fail. -/
def batchFailing : MultipleSignedTransports := ⟨5, [msgA, msgEmpty, msgB], [1, 2]⟩

/-- A toy outer world for the result path. Every message decodes to `rd`,
non-empty JSON parses to fixed values, the credentials `"01"` decode to the
byte 1, which is their prefix, and the writer succeeds. -/
def toyResultEnv (rd : ResultData) : ResultEnv :=
  { ResultDataUnmarshalSSZ := fun _ => .ok rd
    UnmarshalDepositData := fun b =>
      if b = [] then .error "unexpected end of JSON input" else .ok (some ⟨"01"⟩)
    UnmarshalKeyShares := fun b =>
      if b = [] then .error "unexpected end of JSON input" else .ok (some ⟨[⟨0, "0x00"⟩]⟩)
    UnmarshalProofs := fun b =>
      if b = [] then .error "unexpected end of JSON input" else .ok []
    hexDecodeString := fun str =>
      if str = "01" then .ok [1] else .error "encoding/hex: invalid byte"
    ParseWithdrawalCredentials := fun creds => (creds.headD 0, creds.drop 12)
    HexToAddress := fun _ => []
    BytesToAddress := fun b => b
    WriteResults := fun _ => none }

/-- Result data for ceremony 5 with empty deposit data and non-empty key
shares and proofs. -/
def resultNoDeposit : ResultData := ⟨[⟨1, [48]⟩], 5, [], [123], [91]⟩

/-- Result data for ceremony 5 with deposit data, key shares and proofs. -/
def resultFull : ResultData := ⟨[⟨1, [48]⟩], 5, [123], [123], [91]⟩

/-- A result message for ceremony 5 with a good toy signature. -/
def resultMsg : SignedTransport := ⟨⟨4, 5, [1], [2]⟩, [], [1]⟩

/-- The id whose 24 bytes spell `n`. -/
def mkID (n : Nat) : InstanceID := ⟨n % 256 ^ 24, Nat.mod_lt n (by norm_num)⟩

/-- A map with the `MaxInstances` keys `mkID 0`, ..., `mkID 1023`, the key
`mkID i` bound to `f i`. -/
def fullMap {V : Type} (f : Nat → V) : GoMap InstanceID V :=
  ⟨(List.range MaxInstances).map (fun i => (mkID i, f i)), by
    rw [List.map_map]
    refine List.Nodup.map_on ?_ (List.nodup_range _)
    intro i hi j hj hij
    have hi' : i < 1024 := List.mem_range.1 hi
    have hj' : j < 1024 := List.mem_range.1 hj
    have h := congrArg Fin.val hij
    simp only [Function.comp, mkID] at h
    omega⟩

/-- A switch with `MaxInstances` ceremonies, ceremony `mkID i` created at
time `f i`. -/
def fullSwitch (f : Nat → Time) : Switch Nat :=
  toySwitch (fullMap f) (fullMap (fun _ => ⟨0, ⟨3233, 17⟩⟩))

/-! ## Facts about Go maps -/

namespace GoMap

theorem ext_entries {K V : Type} {m m' : GoMap K V} (h : m.entries = m'.entries) : m = m' := by
  cases m; cases m'; cases h; rfl

variable {K V : Type} [DecidableEq K]

theorem deleteAll_nil (m : GoMap K V) : m.deleteAll [] = m := by
  apply ext_entries
  simp [deleteAll]

theorem delete_deleteAll (m : GoMap K V) (k : K) (ks : List K) :
    (m.delete k).deleteAll ks = m.deleteAll (k :: ks) := by
  apply ext_entries
  simp only [deleteAll, delete, List.filter_filter]
  apply List.filter_congr
  intro e _
  by_cases h1 : e.1 = k <;> by_cases h2 : e.1 ∈ ks <;> simp [h1, h2]

theorem get?_eq_none_iff (m : GoMap K V) (k : K) : m.get? k = none ↔ k ∉ m.keys := by
  simp only [get?, keys, Option.map_eq_none', List.find?_eq_none, List.mem_map, not_exists,
    not_and, decide_eq_true_eq]

theorem get?_eq_some_iff (m : GoMap K V) (k : K) (v : V) :
    m.get? k = some v ↔ (k, v) ∈ m.entries := by
  obtain ⟨l, hl⟩ := m
  simp only [get?]
  induction l with
  | nil => simp
  | cons e rest ih =>
    rw [List.map_cons, List.nodup_cons] at hl
    by_cases hk : e.1 = k
    · simp only [List.find?_cons, hk, decide_True, Option.map_some', Option.some.injEq,
        List.mem_cons]
      constructor
      · intro h
        left
        rw [← h, ← hk]
      · rintro (h | h)
        · subst h
          rfl
        · exfalso
          apply hl.1
          rw [hk]
          exact List.mem_map.2 ⟨(k, v), h, rfl⟩
    · simp only [List.find?_cons, hk, decide_False, List.mem_cons]
      rw [ih hl.2]
      constructor
      · intro h
        exact Or.inr h
      · rintro (h | h)
        · exfalso
          apply hk
          subst h
          rfl
        · exact h

theorem mem_keys_iff (m : GoMap K V) (k : K) : k ∈ m.keys ↔ ∃ v, m.get? k = some v := by
  constructor
  · intro h
    obtain ⟨e, he, hk⟩ := List.mem_map.1 h
    refine ⟨e.2, (get?_eq_some_iff m k e.2).2 ?_⟩
    rw [← hk]
    exact he
  · rintro ⟨v, hv⟩
    exact List.mem_map.2 ⟨(k, v), (get?_eq_some_iff m k v).1 hv, rfl⟩

theorem mem_keys_deleteAll (m : GoMap K V) (ks : List K) (x : K) :
    x ∈ (m.deleteAll ks).keys ↔ x ∈ m.keys ∧ x ∉ ks := by
  simp only [keys, deleteAll, List.mem_map, List.mem_filter, decide_eq_true_eq]
  constructor
  · rintro ⟨e, ⟨he, hn⟩, rfl⟩
    exact ⟨⟨e, he, rfl⟩, hn⟩
  · rintro ⟨⟨e, he, rfl⟩, hn⟩
    exact ⟨e, ⟨he, hn⟩, rfl⟩

theorem delete_eq_deleteAll (m : GoMap K V) (k : K) : m.delete k = m.deleteAll [k] := by
  rw [← delete_deleteAll, deleteAll_nil]

theorem mem_keys_delete (m : GoMap K V) (k x : K) :
    x ∈ (m.delete k).keys ↔ x ∈ m.keys ∧ x ≠ k := by
  rw [delete_eq_deleteAll, mem_keys_deleteAll]
  simp

theorem mem_keys_set (m : GoMap K V) (k : K) (v : V) (x : K) :
    x ∈ (m.set k v).keys ↔ x = k ∨ x ∈ m.keys := by
  have h := mem_keys_delete m k x
  simp only [keys, delete] at h
  simp only [keys, set, List.map_cons, List.mem_cons, h]
  constructor
  · rintro (h1 | h1)
    · exact Or.inl h1
    · exact Or.inr h1.1
  · rintro (h1 | h1)
    · exact Or.inl h1
    · by_cases hx : x = k
      · exact Or.inl hx
      · exact Or.inr ⟨h1, hx⟩

theorem get?_deleteAll (m : GoMap K V) (ks : List K) (x : K) :
    (m.deleteAll ks).get? x = if x ∈ ks then none else m.get? x := by
  by_cases hx : x ∈ ks
  · rw [if_pos hx, get?_eq_none_iff, mem_keys_deleteAll]
    exact fun h => h.2 hx
  · rw [if_neg hx]
    cases hg : m.get? x with
    | none =>
      rw [get?_eq_none_iff, mem_keys_deleteAll]
      exact fun h => (get?_eq_none_iff m x).1 hg h.1
    | some v =>
      rw [get?_eq_some_iff]
      simp only [deleteAll, List.mem_filter, decide_eq_true_eq]
      exact ⟨(get?_eq_some_iff m x v).1 hg, hx⟩

theorem get?_delete (m : GoMap K V) (k x : K) :
    (m.delete k).get? x = if x = k then none else m.get? x := by
  rw [delete_eq_deleteAll, get?_deleteAll]
  simp

theorem get?_set (m : GoMap K V) (k : K) (v : V) (x : K) :
    (m.set k v).get? x = if x = k then some v else m.get? x := by
  by_cases hx : x = k
  · rw [if_pos hx, get?_eq_some_iff, hx]
    exact List.mem_cons_self _ _
  · rw [if_neg hx, ← get?_delete m k x |>.trans (if_neg hx)]
    simp only [get?, set, delete, List.find?_cons]
    have : decide (k = x) = false := by
      simpa using fun h : k = x => hx h.symm
    rw [this]

theorem len_deleteAll_le (m : GoMap K V) (ks : List K) : (m.deleteAll ks).len ≤ m.len :=
  List.length_filter_le _ _

theorem len_delete_le (m : GoMap K V) (k : K) : (m.delete k).len ≤ m.len :=
  List.length_filter_le _ _

theorem len_set_le (m : GoMap K V) (k : K) (v : V) : (m.set k v).len ≤ (m.delete k).len + 1 := by
  simp [len, set, delete]

/-- Deleting distinct keys that are all present lowers `len` by their number. -/
theorem len_deleteAll (m : GoMap K V) (ks : List K) (hnd : ks.Nodup)
    (hsub : ∀ k ∈ ks, k ∈ m.keys) : (m.deleteAll ks).len + ks.length = m.len := by
  have h1 : (m.deleteAll ks).len = (m.keys.filter (fun k => decide (k ∉ ks))).length := by
    simp only [len, deleteAll, keys, List.filter_map, List.length_map]
    rfl
  have h2 : ks.length = (m.keys.filter (fun k => decide (k ∈ ks))).length := by
    apply List.Perm.length_eq
    have hnd2 : (m.keys.filter (fun k => decide (k ∈ ks))).Nodup := List.Nodup.filter _ m.nodup
    rw [List.perm_ext_iff_of_nodup hnd hnd2]
    intro a
    simp only [List.mem_filter, decide_eq_true_eq]
    exact ⟨fun h => ⟨hsub a h, h⟩, fun h => h.2⟩
  have h3 : m.len = m.keys.length := by simp [len, keys]
  rw [h1, h2, h3]
  have := @List.length_eq_length_filter_add _ m.keys (fun k => decide (k ∈ ks))
  rw [this, Nat.add_comm]
  congr 2
  apply List.filter_congr
  intro x _
  simp

theorem deleteAll_deleteAll (m : GoMap K V) (a b : List K) :
    (m.deleteAll a).deleteAll b = m.deleteAll (a ++ b) := by
  apply ext_entries
  simp only [deleteAll, List.filter_filter]
  apply List.filter_congr
  intro e _
  by_cases h1 : e.1 ∈ a <;> by_cases h2 : e.1 ∈ b <;> simp [h1, h2]

end GoMap

/-! ## Facts about the sweep -/

section Sweep

variable {LocalOwner : Type}

theorem switch_deleteAll_nil (s : Switch LocalOwner) : s.deleteAll [] = s := by
  cases s
  simp [Switch.deleteAll, GoMap.deleteAll_nil]

theorem cleanLoop_eq (clk : Nat → Time) (pairs : List (InstanceID × Time)) (tick : Nat)
    (s : Switch LocalOwner) (count : Nat) :
    cleanLoop clk pairs tick s count =
      (count + (staleIds clk pairs tick).length, s.deleteAll (staleIds clk pairs tick),
        tick + pairs.length) := by
  induction pairs generalizing tick s count with
  | nil => simp [cleanLoop, staleIds, switch_deleteAll_nil]
  | cons p rest ih =>
    obtain ⟨id, instime⟩ := p
    by_cases h : (clk tick).After (instime.Add MaxInstanceTime) = true
    · simp only [cleanLoop, staleIds, h, if_true, ih, List.length_cons]
      refine Prod.ext (by simp; omega) (Prod.ext ?_ (by simp; omega))
      simp [Switch.deleteAll, GoMap.delete_deleteAll]
    · simp only [cleanLoop, staleIds, h, if_false, ih, List.length_cons]
      refine Prod.ext rfl (Prod.ext rfl (by simp; omega))

theorem staleIds_sublist (clk : Nat → Time) (pairs : List (InstanceID × Time)) (tick : Nat) :
    (staleIds clk pairs tick).Sublist (pairs.map Prod.fst) := by
  induction pairs generalizing tick with
  | nil => simp [staleIds]
  | cons p rest ih =>
    obtain ⟨id, instime⟩ := p
    by_cases h : (clk tick).After (instime.Add MaxInstanceTime) = true
    · simp only [staleIds, h, if_true, List.map_cons]
      exact (ih (tick + 1)).cons₂ id
    · simp only [staleIds, h, if_false, List.map_cons]
      exact (ih (tick + 1)).cons id

theorem after_iff_stale (now t : Int) :
    (Time.After now (Time.Add t MaxInstanceTime) = true) ↔ stale now t := by
  simp only [Time.After, Time.Add, stale, decide_eq_true_eq]
  change t + MaxInstanceTime < now ↔ MaxInstanceTime < now - t
  constructor <;> intro h <;> omega

theorem mem_staleIds_const (now : Time) (pairs : List (InstanceID × Time)) (tick : Nat)
    (id : InstanceID) :
    id ∈ staleIds (fun _ => now) pairs tick ↔ ∃ t, (id, t) ∈ pairs ∧ stale now t := by
  induction pairs generalizing tick with
  | nil => simp [staleIds]
  | cons p rest ih =>
    obtain ⟨id', instime⟩ := p
    by_cases h : Time.After now (instime.Add MaxInstanceTime) = true
    · simp only [staleIds, h, if_true, List.mem_cons, ih, Prod.mk.injEq]
      constructor
      · rintro (rfl | ⟨t, ht, hs⟩)
        · exact ⟨instime, Or.inl ⟨rfl, rfl⟩, (after_iff_stale _ _).1 h⟩
        · exact ⟨t, Or.inr ht, hs⟩
      · rintro ⟨t, (⟨rfl, rfl⟩ | ht), hs⟩
        · exact Or.inl rfl
        · exact Or.inr ⟨t, ht, hs⟩
    · simp only [staleIds, h, Bool.false_eq_true, if_false, List.mem_cons, ih, Prod.mk.injEq]
      constructor
      · rintro ⟨t, ht, hs⟩
        exact ⟨t, Or.inr ht, hs⟩
      · rintro ⟨t, (⟨rfl, rfl⟩ | ht), hs⟩
        · exact absurd ((after_iff_stale _ _).2 hs) h
        · exact ⟨t, ht, hs⟩

theorem staleIds_const_eq (now : Time) (pairs : List (InstanceID × Time)) (tick : Nat) :
    staleIds (fun _ => now) pairs tick
      = (pairs.filter (fun e => decide (stale now e.2))).map Prod.fst := by
  induction pairs generalizing tick with
  | nil => simp [staleIds]
  | cons p rest ih =>
    obtain ⟨id, instime⟩ := p
    by_cases h : stale now instime
    · have h' := (after_iff_stale now instime).2 h
      simp only [staleIds, h', if_true, ih, List.filter_cons, h, decide_True, List.map_cons]
    · have h' : Time.After now (Time.Add instime MaxInstanceTime) = false := by
        rw [← Bool.not_eq_true, after_iff_stale]
        exact h
      simp only [staleIds, h', Bool.false_eq_true, if_false, ih, List.filter_cons, h,
        decide_False]

/-- What the sweep does to a lookup in `InstanceInitTime`, at one instant. -/
theorem sweep_initTime_get? (now : Time) (tick : Nat) (s : Switch LocalOwner)
    (id : InstanceID) :
    (s.CleanInstances (fun _ => now) tick).2.1.InstanceInitTime.get? id =
      if id ∈ staleIds (fun _ => now) s.InstanceInitTime.entries tick then none
      else s.InstanceInitTime.get? id := by
  rw [Switch.CleanInstances, cleanLoop_eq]
  exact GoMap.get?_deleteAll _ _ _

/-- What the sweep does to a lookup in `Instances`, at one instant. -/
theorem sweep_instances_get? (now : Time) (tick : Nat) (s : Switch LocalOwner)
    (id : InstanceID) :
    (s.CleanInstances (fun _ => now) tick).2.1.Instances.get? id =
      if id ∈ staleIds (fun _ => now) s.InstanceInitTime.entries tick then none
      else s.Instances.get? id := by
  rw [Switch.CleanInstances, cleanLoop_eq]
  exact GoMap.get?_deleteAll _ _ _

theorem mem_staleIds_iff_get? (now : Time) (m : GoMap InstanceID Time) (tick : Nat)
    (id : InstanceID) :
    id ∈ staleIds (fun _ => now) m.entries tick ↔ ∃ t, m.get? id = some t ∧ stale now t := by
  rw [mem_staleIds_const]
  simp only [GoMap.get?_eq_some_iff]

end Sweep

/-! ## Facts about admission -/

section Admission

variable {LocalOwner : Type}

theorem keysAgree_iff (s : Switch LocalOwner) :
    s.keysAgree ↔ ∀ id, id ∈ s.Instances.keys ↔ id ∈ s.InstanceInitTime.keys :=
  ⟨fun h id => ⟨h.1 id, h.2 id⟩, fun h => ⟨fun id => (h id).1, fun id => (h id).2⟩⟩

theorem keysAgree_deleteAll (s : Switch LocalOwner) (ids : List InstanceID)
    (h : s.keysAgree) : (s.deleteAll ids).keysAgree := by
  rw [keysAgree_iff] at h ⊢
  intro id
  simp only [Switch.deleteAll, GoMap.mem_keys_deleteAll, h id]

theorem lockedSection_ge (clk : Nat → Time) (s : Switch LocalOwner) (reqID : InstanceID)
    (h : MaxInstances ≤ s.Instances.len) :
    s.lockedSection clk reqID =
      if (s.Instances.len : Int) - ((staleIds clk s.InstanceInitTime.entries 0).length : Int)
          ≥ (MaxInstances : Int) then
        (some .ErrMaxInstances, s.deleteAll (staleIds clk s.InstanceInitTime.entries 0),
          s.InstanceInitTime.entries.length)
      else
        (s.deleteAll (staleIds clk s.InstanceInitTime.entries 0)).checkExisting clk
          s.InstanceInitTime.entries.length reqID := by
  simp only [Switch.lockedSection, Switch.CleanInstances, cleanLoop_eq, ge_iff_le, h, if_true,
    Nat.zero_add]

theorem lockedSection_lt (clk : Nat → Time) (s : Switch LocalOwner) (reqID : InstanceID)
    (h : s.Instances.len < MaxInstances) :
    s.lockedSection clk reqID = s.checkExisting clk 0 reqID := by
  simp only [Switch.lockedSection, ge_iff_le, Nat.not_le.2 h, if_false]

theorem checkExisting_keysAgree (clk : Nat → Time) (tick : Nat) (s : Switch LocalOwner)
    (reqID : InstanceID) (h : s.keysAgree) : (s.checkExisting clk tick reqID).2.1.keysAgree := by
  unfold Switch.checkExisting
  split
  · dsimp only
    split
    · exact h
    · have := keysAgree_deleteAll s [reqID] h
      simpa [Switch.deleteAll, GoMap.delete_eq_deleteAll] using this
  · exact h

theorem checkExisting_len_le (clk : Nat → Time) (tick : Nat) (s : Switch LocalOwner)
    (reqID : InstanceID) :
    (s.checkExisting clk tick reqID).2.1.Instances.len ≤ s.Instances.len := by
  unfold Switch.checkExisting
  split
  · dsimp only
    split
    · exact le_rfl
    · exact GoMap.len_delete_le _ _
  · exact le_rfl

theorem lockedSection_keysAgree (clk : Nat → Time) (s : Switch LocalOwner)
    (reqID : InstanceID) (h : s.keysAgree) : (s.lockedSection clk reqID).2.1.keysAgree := by
  by_cases hl : MaxInstances ≤ s.Instances.len
  · rw [lockedSection_ge clk s reqID hl]
    split
    · exact keysAgree_deleteAll s _ h
    · exact checkExisting_keysAgree clk _ _ reqID (keysAgree_deleteAll s _ h)
  · rw [lockedSection_lt clk s reqID (Nat.not_le.1 hl)]
    exact checkExisting_keysAgree clk _ _ reqID h

theorem staleIds_nodup (clk : Nat → Time) (m : GoMap InstanceID Time) (tick : Nat) :
    (staleIds clk m.entries tick).Nodup :=
  (staleIds_sublist clk m.entries tick).nodup m.nodup

theorem staleIds_mem_keys (clk : Nat → Time) (m : GoMap InstanceID Time) (tick : Nat)
    (id : InstanceID) (h : id ∈ staleIds clk m.entries tick) : id ∈ m.keys :=
  (staleIds_sublist clk m.entries tick).subset h

/-- Under agreeing keys the sweep lowers `len(s.Instances)` by its count. -/
theorem len_sweep (clk : Nat → Time) (s : Switch LocalOwner) (h : s.keysAgree) :
    (s.deleteAll (staleIds clk s.InstanceInitTime.entries 0)).Instances.len
      + (staleIds clk s.InstanceInitTime.entries 0).length = s.Instances.len :=
  GoMap.len_deleteAll s.Instances _ (staleIds_nodup clk _ 0)
    (fun k hk => h.2 k (staleIds_mem_keys clk _ 0 k hk))

theorem lockedSection_len (clk : Nat → Time) (s : Switch LocalOwner) (reqID : InstanceID)
    (h : s.keysAgree) (hl : s.Instances.len ≤ MaxInstances) :
    (s.lockedSection clk reqID).2.1.Instances.len ≤ MaxInstances ∧
      ((s.lockedSection clk reqID).1 = none →
        (s.lockedSection clk reqID).2.1.Instances.len < MaxInstances) := by
  by_cases hge : MaxInstances ≤ s.Instances.len
  · rw [lockedSection_ge clk s reqID hge]
    have hsw := len_sweep clk s h
    split
    · refine ⟨by dsimp only; omega, ?_⟩
      intro hc
      cases hc
    · rename_i hsat
      have h1 := checkExisting_len_le clk s.InstanceInitTime.entries.length
        (s.deleteAll (staleIds clk s.InstanceInitTime.entries 0)) reqID
      have h2 : (s.deleteAll (staleIds clk s.InstanceInitTime.entries 0)).Instances.len
          < MaxInstances := by omega
      exact ⟨by omega, fun _ => by omega⟩
  · rw [lockedSection_lt clk s reqID (Nat.not_le.1 hge)]
    have h1 := checkExisting_len_le clk 0 s reqID
    exact ⟨by omega, fun _ => by omega⟩

/-- The switch after `InitInstance` is the one before, or the one at the
unlock, or the one at the unlock with the new instance registered. -/
theorem register_switch_cases (env : Env LocalOwner) (clk : Nat → Time)
    (s : Switch LocalOwner) (reqID : InstanceID) (init : Init) (initiatorPubKey : RSAPublicKey) :
    (s.register env clk reqID init initiatorPubKey).2 = (s.lockedSection clk reqID).2.1 ∨
    ((s.lockedSection clk reqID).1 = none ∧ ∃ inst t,
      (s.register env clk reqID init initiatorPubKey).2 =
        { (s.lockedSection clk reqID).2.1 with
          Instances := (s.lockedSection clk reqID).2.1.Instances.set reqID inst
          InstanceInitTime := (s.lockedSection clk reqID).2.1.InstanceInitTime.set reqID t }) := by
  unfold Switch.register
  split
  · rename_i heq
    rw [heq]
    exact Or.inl rfl
  · rename_i heq
    rw [heq]
    split
    · exact Or.inl rfl
    · exact Or.inl rfl
    · exact Or.inr ⟨rfl, _, _, rfl⟩

/-- The switch after `InitInstance` is the one before, or the one at the
unlock, or the one at the unlock with the new instance registered. -/
theorem InitInstance_switch_cases (env : Env LocalOwner) (clk : Nat → Time)
    (s : Switch LocalOwner) (reqID : InstanceID) (initMsg : Transport)
    (initiatorPub initiatorSignature : Bytes) :
    (s.InitInstance env clk reqID initMsg initiatorPub initiatorSignature).2 = s ∨
    (s.InitInstance env clk reqID initMsg initiatorPub initiatorSignature).2
        = (s.lockedSection clk reqID).2.1 ∨
    ((s.lockedSection clk reqID).1 = none ∧ ∃ inst t,
      (s.InitInstance env clk reqID initMsg initiatorPub initiatorSignature).2 =
        { (s.lockedSection clk reqID).2.1 with
          Instances := (s.lockedSection clk reqID).2.1.Instances.set reqID inst
          InstanceInitTime := (s.lockedSection clk reqID).2.1.InstanceInitTime.set reqID t }) := by
  unfold Switch.InitInstance
  split
  · exact Or.inl rfl
  · split
    · exact Or.inl rfl
    · split
      · exact Or.inl rfl
      · split
        · exact Or.inl rfl
        · split
          · exact Or.inl rfl
          · split
            · exact Or.inl rfl
            · exact Or.inr (register_switch_cases env clk s reqID _ _)

/-- A message that passes the checks reaches the locked part. -/
theorem InitInstance_of_passes (env : Env LocalOwner) (clk : Nat → Time)
    (s : Switch LocalOwner) (reqID : InstanceID) (initMsg : Transport)
    (initiatorPub initiatorSignature : Bytes) (init : Init) (initiatorPubKey : RSAPublicKey)
    (hp : passesChecks env s initMsg initiatorPub initiatorSignature init initiatorPubKey) :
    s.InitInstance env clk reqID initMsg initiatorPub initiatorSignature
      = s.register env clk reqID init initiatorPubKey := by
  obtain ⟨hver, hun, hval, hpk, bs, hm, hsig⟩ := hp
  unfold Switch.InitInstance
  rw [if_neg (not_not.2 hver)]
  simp only [hun, hval, hpk, hm, hsig]

theorem keysAgree_set (s : Switch LocalOwner) (reqID : InstanceID)
    (inst : instWrapper LocalOwner) (t : Time) (h : s.keysAgree) :
    Switch.keysAgree { s with Instances := s.Instances.set reqID inst
                              InstanceInitTime := s.InstanceInitTime.set reqID t } := by
  rw [keysAgree_iff] at h ⊢
  intro id
  simp only [GoMap.mem_keys_set, h id]

theorem InitInstance_keysAgree (env : Env LocalOwner) (clk : Nat → Time)
    (s : Switch LocalOwner) (reqID : InstanceID) (initMsg : Transport)
    (initiatorPub initiatorSignature : Bytes) (h : s.keysAgree) :
    (s.InitInstance env clk reqID initMsg initiatorPub initiatorSignature).2.keysAgree := by
  rcases InitInstance_switch_cases env clk s reqID initMsg initiatorPub initiatorSignature with
    h1 | h1 | ⟨_, inst, t, h1⟩
  · rw [h1]; exact h
  · rw [h1]; exact lockedSection_keysAgree clk s reqID h
  · rw [h1]; exact keysAgree_set _ reqID inst t (lockedSection_keysAgree clk s reqID h)

theorem InitInstance_len (env : Env LocalOwner) (clk : Nat → Time)
    (s : Switch LocalOwner) (reqID : InstanceID) (initMsg : Transport)
    (initiatorPub initiatorSignature : Bytes) (h : s.keysAgree)
    (hl : s.Instances.len ≤ MaxInstances) :
    (s.InitInstance env clk reqID initMsg initiatorPub initiatorSignature).2.Instances.len
      ≤ MaxInstances := by
  have hls := lockedSection_len clk s reqID h hl
  rcases InitInstance_switch_cases env clk s reqID initMsg initiatorPub initiatorSignature with
    h1 | h1 | ⟨hnone, inst, t, h1⟩
  · rw [h1]; exact hl
  · rw [h1]; exact hls.1
  · rw [h1]
    have h2 := GoMap.len_set_le (s.lockedSection clk reqID).2.1.Instances reqID inst
    have h3 := GoMap.len_delete_le (s.lockedSection clk reqID).2.1.Instances reqID
    have h4 := hls.2 hnone
    dsimp only
    omega

theorem CleanInstances_switch (clk : Nat → Time) (tick : Nat) (s : Switch LocalOwner) :
    (s.CleanInstances clk tick).2.1 = s.deleteAll (staleIds clk s.InstanceInitTime.entries tick) := by
  simp [Switch.CleanInstances, cleanLoop_eq]

theorem exec_inv (s : Switch LocalOwner) (c : Call LocalOwner) (h : s.keysAgree)
    (hl : s.Instances.len ≤ MaxInstances) :
    (c.exec s).keysAgree ∧ (c.exec s).Instances.len ≤ MaxInstances := by
  cases c with
  | InitInstance env clk reqID initMsg initiatorPub initiatorSignature =>
    exact ⟨InitInstance_keysAgree env clk s reqID initMsg initiatorPub initiatorSignature h,
      InitInstance_len env clk s reqID initMsg initiatorPub initiatorSignature h hl⟩
  | CleanInstances clk =>
    simp only [Call.exec, CleanInstances_switch]
    exact ⟨keysAgree_deleteAll s _ h, le_trans (GoMap.len_deleteAll_le _ _) hl⟩

theorem runCalls_inv (s : Switch LocalOwner) (calls : List (Call LocalOwner))
    (h : s.keysAgree) (hl : s.Instances.len ≤ MaxInstances) :
    (runCalls s calls).keysAgree ∧ (runCalls s calls).Instances.len ≤ MaxInstances := by
  induction calls generalizing s with
  | nil => exact ⟨h, hl⟩
  | cons c rest ih =>
    have hc := exec_inv s c h hl
    simpa [runCalls] using ih (c.exec s) hc.1 hc.2

theorem staleIds_const_nil (now : Time) (m : GoMap InstanceID Time) (tick : Nat)
    (hlive : ∀ id t, m.get? id = some t → ¬ stale now t) :
    staleIds (fun _ => now) m.entries tick = [] := by
  rw [List.eq_nil_iff_forall_not_mem]
  intro id hid
  obtain ⟨t, ht, hst⟩ := (mem_staleIds_iff_get? now m tick id).1 hid
  exact hlive id t ht hst

/-- A saturated switch with no stale entry: the sweep frees nothing and the
locked section ends with the `MaxInstances` error. -/
theorem lockedSection_saturated_live (now : Time) (s : Switch LocalOwner) (reqID : InstanceID)
    (hlen : MaxInstances ≤ s.Instances.len)
    (hlive : ∀ id t, s.InstanceInitTime.get? id = some t → ¬ stale now t) :
    s.lockedSection (fun _ => now) reqID
      = (some .ErrMaxInstances, s, s.InstanceInitTime.entries.length) := by
  rw [lockedSection_ge _ s reqID hlen, staleIds_const_nil now _ 0 hlive, switch_deleteAll_nil]
  rw [if_pos]
  simpa using hlen

theorem checkExisting_live (now : Time) (tick : Nat) (s : Switch LocalOwner)
    (reqID : InstanceID) (inst : instWrapper LocalOwner) (t : Time)
    (hreg : s.Instances.get? reqID = some inst) (ht : s.InstanceInitTime.get? reqID = some t)
    (hnow : now < t + MaxInstanceTime) :
    s.checkExisting (fun _ => now) tick reqID = (some .ErrAlreadyExists, s, tick + 1) := by
  unfold Switch.checkExisting
  rw [hreg, ht]
  simp only [Option.getD_some, Time.Before, Time.Add, hnow, decide_True, if_true]

theorem checkExisting_none (clk : Nat → Time) (tick : Nat) (s : Switch LocalOwner)
    (reqID : InstanceID) (hnew : s.Instances.get? reqID = none) :
    s.checkExisting clk tick reqID = (none, s, tick) := by
  unfold Switch.checkExisting
  rw [hnew]

theorem register_of_locked_err (env : Env LocalOwner) (clk : Nat → Time)
    (s s1 : Switch LocalOwner) (reqID : InstanceID) (init : Init)
    (initiatorPubKey : RSAPublicKey) (e : Err) (tick : Nat)
    (h : s.lockedSection clk reqID = (some e, s1, tick)) :
    s.register env clk reqID init initiatorPubKey = (.err e, s1) := by
  unfold Switch.register
  rw [h]

/-- After a locked section without error the call does not end with the
`MaxInstances` error. -/
theorem register_of_locked_none (env : Env LocalOwner) (clk : Nat → Time)
    (s s1 : Switch LocalOwner) (reqID : InstanceID) (init : Init)
    (initiatorPubKey : RSAPublicKey) (tick : Nat)
    (h : s.lockedSection clk reqID = (none, s1, tick)) :
    (s.register env clk reqID init initiatorPubKey).1 ≠ .err .ErrMaxInstances := by
  unfold Switch.register
  rw [h]
  dsimp only
  split <;> simp

/-- An entry that is not stale at `now` is still there after the sweep. -/
theorem deleteAll_stale_get? (now : Time) (s : Switch LocalOwner) (id : InstanceID)
    (hlive : ∀ t, s.InstanceInitTime.get? id = some t → ¬ stale now t) :
    (s.deleteAll (staleIds (fun _ => now) s.InstanceInitTime.entries 0)).Instances.get? id
        = s.Instances.get? id ∧
      (s.deleteAll (staleIds (fun _ => now) s.InstanceInitTime.entries 0)).InstanceInitTime.get? id
        = s.InstanceInitTime.get? id := by
  have hmem : id ∉ staleIds (fun _ => now) s.InstanceInitTime.entries 0 := by
    intro hm
    obtain ⟨t, ht, hst⟩ := (mem_staleIds_iff_get? now _ 0 id).1 hm
    exact hlive t ht hst
  simp only [Switch.deleteAll, GoMap.get?_deleteAll, if_neg hmem, and_self]

theorem CleanInstances_count (clk : Nat → Time) (tick : Nat) (s : Switch LocalOwner) :
    (s.CleanInstances clk tick).1 = (staleIds clk s.InstanceInitTime.entries tick).length := by
  simp [Switch.CleanInstances, cleanLoop_eq]

theorem before_false_of_stale (now t : Int) (h : stale now t) :
    Time.Before now (Time.Add t MaxInstanceTime) = false := by
  have h' : MaxInstanceTime < now - t := h
  simp only [Time.Before, Time.Add, decide_eq_false_iff_not, not_lt]
  change t + MaxInstanceTime ≤ now
  omega

theorem not_stale_of_lt (now t : Int) (h : now < t + MaxInstanceTime) : ¬ stale now t := by
  unfold stale
  intro h'
  have h'' : MaxInstanceTime < now - t := h'
  omega

theorem get?_unique {V : Type} (m : GoMap InstanceID V) (id : InstanceID) (v w : V)
    (hv : m.get? id = some v) (hw : m.get? id = some w) : v = w := by
  rw [hv] at hw
  exact Option.some.inj hw

/-! ### What the locked section and the registration leave -/

theorem switch_deleteAll_deleteAll (s : Switch LocalOwner) (a b : List InstanceID) :
    (s.deleteAll a).deleteAll b = s.deleteAll (a ++ b) := by
  simp [Switch.deleteAll, GoMap.deleteAll_deleteAll]

theorem checkExisting_cases (clk : Nat → Time) (tick : Nat) (s : Switch LocalOwner)
    (reqID : InstanceID) :
    (s.checkExisting clk tick reqID).2.1 = s ∨
      (s.checkExisting clk tick reqID).2.1 = s.deleteAll [reqID] := by
  unfold Switch.checkExisting
  split
  · dsimp only
    split
    · exact Or.inl rfl
    · right
      simp [Switch.deleteAll, GoMap.delete_eq_deleteAll]
  · exact Or.inl rfl

/-- The switch at the unlock is the switch at the lock without some ids, each
of them the id of the call or an id deleted by the sweep. -/
theorem lockedSection_eq_deleteAll (clk : Nat → Time) (s : Switch LocalOwner)
    (reqID : InstanceID) :
    ∃ ids, (s.lockedSection clk reqID).2.1 = s.deleteAll ids ∧
      ∀ id ∈ ids, id = reqID ∨ id ∈ staleIds clk s.InstanceInitTime.entries 0 := by
  by_cases hge : MaxInstances ≤ s.Instances.len
  · rw [lockedSection_ge clk s reqID hge]
    split
    · exact ⟨_, rfl, fun id h => Or.inr h⟩
    · rcases checkExisting_cases clk s.InstanceInitTime.entries.length
        (s.deleteAll (staleIds clk s.InstanceInitTime.entries 0)) reqID with h | h
      · exact ⟨_, h, fun id h => Or.inr h⟩
      · refine ⟨_, h.trans (switch_deleteAll_deleteAll s _ _), ?_⟩
        intro id hid
        rcases List.mem_append.1 hid with h1 | h1
        · exact Or.inr h1
        · exact Or.inl (List.mem_singleton.1 h1)
  · rw [lockedSection_lt clk s reqID (Nat.not_le.1 hge)]
    rcases checkExisting_cases clk 0 s reqID with h | h
    · exact ⟨[], h.trans (switch_deleteAll_nil s).symm, fun id h => absurd h (List.not_mem_nil _)⟩
    · exact ⟨_, h, fun id hid => Or.inl (List.mem_singleton.1 hid)⟩

/-- No map of the switch is read by `CreateInstance`. -/
theorem CreateInstance_deleteAll (env : Env LocalOwner) (s : Switch LocalOwner)
    (ids : List InstanceID) (reqID : InstanceID) (init : Init) (initiatorPubKey : RSAPublicKey) :
    (s.deleteAll ids).CreateInstance env reqID init initiatorPubKey
      = s.CreateInstance env reqID init initiatorPubKey := rfl

/-- An entry of another id that is not stale at `now` is untouched by the
locked section. -/
theorem lockedSection_frame (now : Time) (s : Switch LocalOwner) (reqID id : InstanceID)
    (hne : id ≠ reqID) (hlive : ∀ t, s.InstanceInitTime.get? id = some t → ¬ stale now t) :
    (s.lockedSection (fun _ => now) reqID).2.1.Instances.get? id = s.Instances.get? id ∧
      (s.lockedSection (fun _ => now) reqID).2.1.InstanceInitTime.get? id
        = s.InstanceInitTime.get? id := by
  obtain ⟨ids, heq, hids⟩ := lockedSection_eq_deleteAll (fun _ => now) s reqID
  have hmem : id ∉ ids := by
    intro hm
    rcases hids id hm with h | h
    · exact hne h
    · obtain ⟨t, ht, hst⟩ := (mem_staleIds_iff_get? now _ 0 id).1 h
      exact hlive t ht hst
  rw [heq]
  simp only [Switch.deleteAll, GoMap.get?_deleteAll, if_neg hmem, and_self]

theorem checkExisting_absent (clk : Nat → Time) (tick : Nat) (s : Switch LocalOwner)
    (reqID id : InstanceID) (h1 : s.Instances.get? id = none)
    (h2 : s.InstanceInitTime.get? id = none) :
    (s.checkExisting clk tick reqID).2.1.Instances.get? id = none ∧
      (s.checkExisting clk tick reqID).2.1.InstanceInitTime.get? id = none := by
  rcases checkExisting_cases clk tick s reqID with h | h
  · rw [h]
    exact ⟨h1, h2⟩
  · rw [h]
    simp only [Switch.deleteAll, GoMap.get?_deleteAll, h1, h2, ite_self, and_self]

/-- On a switch with `MaxInstances` entries or more, an id that the sweep
deletes is absent at the unlock. -/
theorem lockedSection_absent_swept (clk : Nat → Time) (s : Switch LocalOwner)
    (reqID id : InstanceID) (hge : MaxInstances ≤ s.Instances.len)
    (hmem : id ∈ staleIds clk s.InstanceInitTime.entries 0) :
    (s.lockedSection clk reqID).2.1.Instances.get? id = none ∧
      (s.lockedSection clk reqID).2.1.InstanceInitTime.get? id = none := by
  have h0 : (s.deleteAll (staleIds clk s.InstanceInitTime.entries 0)).Instances.get? id = none ∧
      (s.deleteAll (staleIds clk s.InstanceInitTime.entries 0)).InstanceInitTime.get? id
        = none := by
    simp only [Switch.deleteAll, GoMap.get?_deleteAll, if_pos hmem, and_self]
  rw [lockedSection_ge clk s reqID hge]
  split
  · exact h0
  · exact checkExisting_absent clk _ _ reqID id h0.1 h0.2

/-- A stale entry under the id of the call is absent at the unlock. -/
theorem lockedSection_absent_own (now : Time) (s : Switch LocalOwner) (reqID : InstanceID)
    (inst : instWrapper LocalOwner) (t : Time)
    (hreg : s.Instances.get? reqID = some inst) (ht : s.InstanceInitTime.get? reqID = some t)
    (hst : stale now t) :
    (s.lockedSection (fun _ => now) reqID).2.1.Instances.get? reqID = none ∧
      (s.lockedSection (fun _ => now) reqID).2.1.InstanceInitTime.get? reqID = none := by
  by_cases hge : MaxInstances ≤ s.Instances.len
  · exact lockedSection_absent_swept _ s reqID reqID hge
      ((mem_staleIds_iff_get? now _ 0 reqID).2 ⟨t, ht, hst⟩)
  · rw [lockedSection_lt _ s reqID (Nat.not_le.1 hge)]
    unfold Switch.checkExisting
    rw [hreg, ht]
    have hb := before_false_of_stale now t hst
    simp only [Option.getD_some, hb, Bool.false_eq_true, if_false, GoMap.get?_delete, if_true,
      and_self]

theorem register_ret (env : Env LocalOwner) (clk : Nat → Time) (s : Switch LocalOwner)
    (reqID : InstanceID) (init : Init) (initiatorPubKey : RSAPublicKey) (resp : Bytes)
    (h : (s.register env clk reqID init initiatorPubKey).1 = .ret resp) :
    ∃ inst, (s.lockedSection clk reqID).1 = none ∧
      (s.lockedSection clk reqID).2.1.CreateInstance env reqID init initiatorPubKey
        = .ret (inst, resp) ∧
      (s.register env clk reqID init initiatorPubKey).2 =
        { (s.lockedSection clk reqID).2.1 with
          Instances := (s.lockedSection clk reqID).2.1.Instances.set reqID inst
          InstanceInitTime := (s.lockedSection clk reqID).2.1.InstanceInitTime.set reqID
            (clk (s.lockedSection clk reqID).2.2) } := by
  unfold Switch.register at h ⊢
  split at h
  · cases h
  · rename_i s1 tick heq
    rw [heq]
    dsimp only
    split at h
    · cases h
    · cases h
    · rename_i inst resp' hc
      cases h
      exact ⟨inst, rfl, hc, by simp only [hc]⟩

theorem register_not_ret (env : Env LocalOwner) (clk : Nat → Time) (s : Switch LocalOwner)
    (reqID : InstanceID) (init : Init) (initiatorPubKey : RSAPublicKey)
    (h : ∀ resp, (s.register env clk reqID init initiatorPubKey).1 ≠ .ret resp) :
    (s.register env clk reqID init initiatorPubKey).2 = (s.lockedSection clk reqID).2.1 := by
  unfold Switch.register at h ⊢
  split
  · rename_i heq
    rw [heq]
  · rename_i s1 tick heq
    rw [heq]
    dsimp only
    split
    · rfl
    · rfl
    · rename_i inst resp hc
      exfalso
      apply h resp
      simp only [heq, hc]

theorem InitInstance_ret_passes (env : Env LocalOwner) (clk : Nat → Time)
    (s : Switch LocalOwner) (reqID : InstanceID) (initMsg : Transport)
    (initiatorPub initiatorSignature : Bytes) (resp : Bytes)
    (h : (s.InitInstance env clk reqID initMsg initiatorPub initiatorSignature).1 = .ret resp) :
    ∃ init initiatorPubKey,
      passesChecks env s initMsg initiatorPub initiatorSignature init initiatorPubKey := by
  unfold Switch.InitInstance at h
  split at h
  · cases h
  · rename_i hver
    split at h
    · cases h
    · rename_i init hun
      split at h
      · cases h
      · rename_i hval
        split at h
        · cases h
        · rename_i pk hpk
          split at h
          · cases h
          · rename_i bs hm
            split at h
            · cases h
            · rename_i hsig
              exact ⟨init, pk, not_not.1 hver, hun, hval, hpk, bs, hm, hsig⟩

/-! ### Re-use of an id whose instance has expired -/

theorem before_false_of_ge (now t : Int) (h : t + MaxInstanceTime ≤ now) :
    Time.Before now (Time.Add t MaxInstanceTime) = false := by
  simp only [Time.Before, Time.Add, decide_eq_false_iff_not, not_lt]
  change t + MaxInstanceTime ≤ now
  omega

/-- The test for an entry under `reqID` leaves no entry under it when the
entry there, if any, is at least `MaxInstanceTime` old. -/
theorem checkExisting_expired (now : Time) (tick : Nat) (s : Switch LocalOwner)
    (reqID : InstanceID)
    (h : (s.Instances.get? reqID = none ∧ s.InstanceInitTime.get? reqID = none) ∨
      (∃ i t, s.Instances.get? reqID = some i ∧ s.InstanceInitTime.get? reqID = some t ∧
        t + MaxInstanceTime ≤ now)) :
    (s.checkExisting (fun _ => now) tick reqID).1 = none ∧
      (s.checkExisting (fun _ => now) tick reqID).2.1.Instances.get? reqID = none ∧
      (s.checkExisting (fun _ => now) tick reqID).2.1.InstanceInitTime.get? reqID = none := by
  rcases h with ⟨h1, h2⟩ | ⟨i, t, h1, h2, h3⟩
  · rw [checkExisting_none _ tick s reqID h1]
    exact ⟨rfl, h1, h2⟩
  · unfold Switch.checkExisting
    rw [h1, h2]
    have hb := before_false_of_ge now t h3
    simp only [Option.getD_some, hb, Bool.false_eq_true, if_false, GoMap.get?_delete, if_true,
      and_self]

/-- When the locked section ends without error, an entry under `reqID` that
was at least `MaxInstanceTime` old is gone at the unlock. -/
theorem lockedSection_expired (now : Time) (s : Switch LocalOwner) (reqID : InstanceID)
    (inst : instWrapper LocalOwner) (t : Time)
    (hreg : s.Instances.get? reqID = some inst) (ht : s.InstanceInitTime.get? reqID = some t)
    (hnow : t + MaxInstanceTime ≤ now)
    (hok : (s.lockedSection (fun _ => now) reqID).1 = none) :
    (s.lockedSection (fun _ => now) reqID).2.1.Instances.get? reqID = none ∧
      (s.lockedSection (fun _ => now) reqID).2.1.InstanceInitTime.get? reqID = none := by
  by_cases hge : MaxInstances ≤ s.Instances.len
  · rw [lockedSection_ge _ s reqID hge] at hok ⊢
    split at hok
    · cases hok
    · rename_i hsat
      rw [if_neg hsat]
      refine (checkExisting_expired now _ _ reqID ?_).2
      by_cases hmem : reqID ∈ staleIds (fun _ => now) s.InstanceInitTime.entries 0
      · left
        simp only [Switch.deleteAll, GoMap.get?_deleteAll, if_pos hmem, and_self]
      · right
        refine ⟨inst, t, ?_, ?_, hnow⟩
        · simp only [Switch.deleteAll, GoMap.get?_deleteAll, if_neg hmem, hreg]
        · simp only [Switch.deleteAll, GoMap.get?_deleteAll, if_neg hmem, ht]
  · rw [lockedSection_lt _ s reqID (Nat.not_le.1 hge)]
    exact (checkExisting_expired now 0 s reqID (Or.inr ⟨inst, t, hreg, ht, hnow⟩)).2

/-- The call returns the error of `CreateInstance` only when the locked
section ended without error and `CreateInstance` failed on the switch at the
unlock, which is then the switch after the call. -/
theorem register_create_err (env : Env LocalOwner) (clk : Nat → Time) (s : Switch LocalOwner)
    (reqID : InstanceID) (init : Init) (initiatorPubKey : RSAPublicKey) (e : String)
    (h : (s.register env clk reqID init initiatorPubKey).1 = .err (.initCreate e)) :
    (s.lockedSection clk reqID).1 = none ∧
      (s.lockedSection clk reqID).2.1.CreateInstance env reqID init initiatorPubKey = .err e ∧
      (s.register env clk reqID init initiatorPubKey).2 = (s.lockedSection clk reqID).2.1 := by
  unfold Switch.register at h ⊢
  split at h
  · rename_i e' s1 tick heq
    rw [heq]
    have hmax : (s.lockedSection clk reqID).1 = some .ErrMaxInstances ∨
        (s.lockedSection clk reqID).1 = some .ErrAlreadyExists ∨
        (s.lockedSection clk reqID).1 = none := by
      by_cases hge : MaxInstances ≤ s.Instances.len
      · rw [lockedSection_ge clk s reqID hge]
        split
        · exact Or.inl rfl
        · unfold Switch.checkExisting
          split
          · dsimp only
            split
            · exact Or.inr (Or.inl rfl)
            · exact Or.inr (Or.inr rfl)
          · exact Or.inr (Or.inr rfl)
      · rw [lockedSection_lt clk s reqID (Nat.not_le.1 hge)]
        unfold Switch.checkExisting
        split
        · dsimp only
          split
          · exact Or.inr (Or.inl rfl)
          · exact Or.inr (Or.inr rfl)
        · exact Or.inr (Or.inr rfl)
    rw [heq] at hmax
    rcases hmax with h1 | h1 | h1
    · cases h1
      cases h
    · cases h1
      cases h
    · cases h1
  · rename_i s1 tick heq
    rw [heq]
    dsimp only
    split at h
    · rename_i e' hc
      cases h
      simp only [hc, and_self]
    · cases h
    · cases h

theorem InitInstance_signature_fails (env : Env LocalOwner) (clk : Nat → Time)
    (s : Switch LocalOwner) (reqID : InstanceID) (initMsg : Transport)
    (initiatorPub initiatorSignature : Bytes) (init : Init) (initiatorPubKey : RSAPublicKey)
    (marshalledWireMsg : Bytes) (e : String)
    (hver : initMsg.Version = s.Version)
    (hun : env.InitUnmarshalSSZ initMsg.Data = .ok init)
    (hval : env.ValidateInitMessage init = none)
    (hpk : env.ParseRSAPublicKey initiatorPub = .ok initiatorPubKey)
    (hm : env.TransportMarshalSSZ initMsg = .ok marshalledWireMsg)
    (hsig : env.VerifyRSA initiatorPubKey marshalledWireMsg initiatorSignature = some e) :
    s.InitInstance env clk reqID initMsg initiatorPub initiatorSignature
      = (.err (.initSignature e), s) := by
  unfold Switch.InitInstance
  rw [if_neg (not_not.2 hver)]
  simp only [hun, hval, hpk, hm, hsig]

/-- On a switch below `MaxInstances`, with an expired entry under `reqID`, a
failure of `CreateInstance` is what the call returns. -/
theorem register_expired_create_err (env : Env LocalOwner) (now : Time)
    (s : Switch LocalOwner) (reqID : InstanceID) (init : Init) (initiatorPubKey : RSAPublicKey)
    (inst : instWrapper LocalOwner) (t : Time) (e : String)
    (hreg : s.Instances.get? reqID = some inst) (ht : s.InstanceInitTime.get? reqID = some t)
    (hnow : t + MaxInstanceTime ≤ now) (hlt : s.Instances.len < MaxInstances)
    (hc : s.CreateInstance env reqID init initiatorPubKey = .err e) :
    (s.register env (fun _ => now) reqID init initiatorPubKey).1 = .err (.initCreate e) := by
  have hl : s.lockedSection (fun _ => now) reqID
      = (none, { s with Instances := s.Instances.delete reqID
                        InstanceInitTime := s.InstanceInitTime.delete reqID }, 0 + 1) := by
    rw [lockedSection_lt _ s reqID hlt]
    unfold Switch.checkExisting
    rw [hreg, ht]
    have hb := before_false_of_ge now t hnow
    simp only [Option.getD_some, hb, Bool.false_eq_true, if_false]
  have hc' : Switch.CreateInstance env
      { s with Instances := s.Instances.delete reqID
               InstanceInitTime := s.InstanceInitTime.delete reqID } reqID init initiatorPubKey
      = .err e := hc
  unfold Switch.register
  rw [hl]
  simp only [hc']

/-- With an expired entry under `reqID` the locked section ends without error
or with the `MaxInstances` error. -/
theorem lockedSection_expired_cases (now : Time) (s : Switch LocalOwner) (reqID : InstanceID)
    (inst : instWrapper LocalOwner) (t : Time)
    (hreg : s.Instances.get? reqID = some inst) (ht : s.InstanceInitTime.get? reqID = some t)
    (hnow : t + MaxInstanceTime ≤ now) :
    (s.lockedSection (fun _ => now) reqID).1 = none ∨
      (s.lockedSection (fun _ => now) reqID).1 = some .ErrMaxInstances := by
  by_cases hge : MaxInstances ≤ s.Instances.len
  · rw [lockedSection_ge _ s reqID hge]
    split
    · exact Or.inr rfl
    · left
      refine (checkExisting_expired now _ _ reqID ?_).1
      by_cases hmem : reqID ∈ staleIds (fun _ => now) s.InstanceInitTime.entries 0
      · left
        simp only [Switch.deleteAll, GoMap.get?_deleteAll, if_pos hmem, and_self]
      · right
        refine ⟨inst, t, ?_, ?_, hnow⟩
        · simp only [Switch.deleteAll, GoMap.get?_deleteAll, if_neg hmem, hreg]
        · simp only [Switch.deleteAll, GoMap.get?_deleteAll, if_neg hmem, ht]
  · rw [lockedSection_lt _ s reqID (Nat.not_le.1 hge)]
    exact Or.inl (checkExisting_expired now 0 s reqID (Or.inr ⟨inst, t, hreg, ht, hnow⟩)).1

/-- After a locked section without error, a failure of `CreateInstance` is
what the call returns. -/
theorem register_locked_none_create_err (env : Env LocalOwner) (clk : Nat → Time)
    (s : Switch LocalOwner) (reqID : InstanceID) (init : Init) (initiatorPubKey : RSAPublicKey)
    (e : String) (hok : (s.lockedSection clk reqID).1 = none)
    (hc : s.CreateInstance env reqID init initiatorPubKey = .err e) :
    (s.register env clk reqID init initiatorPubKey).1 = .err (.initCreate e) := by
  obtain ⟨ids, hids, _⟩ := lockedSection_eq_deleteAll clk s reqID
  have hc' : (s.lockedSection clk reqID).2.1.CreateInstance env reqID init initiatorPubKey
      = .err e := by
    rw [hids, CreateInstance_deleteAll]
    exact hc
  unfold Switch.register
  split
  · rename_i e' s1 tick heq
    rw [heq] at hok
    cases hok
  · rename_i s1 tick heq
    rw [heq] at hc'
    dsimp only at hc'
    simp only [hc']

theorem register_locked_max (env : Env LocalOwner) (clk : Nat → Time)
    (s : Switch LocalOwner) (reqID : InstanceID) (init : Init) (initiatorPubKey : RSAPublicKey)
    (hmax : (s.lockedSection clk reqID).1 = some .ErrMaxInstances) :
    (s.register env clk reqID init initiatorPubKey).1 = .err .ErrMaxInstances := by
  unfold Switch.register
  split
  · rename_i e' s1 tick heq
    rw [heq] at hmax
    cases hmax
    rfl
  · rename_i s1 tick heq
    rw [heq] at hmax
    cases hmax

/-! ### The saturated switch -/

theorem fullMap_entries {V : Type} (f : Nat → V) :
    (fullMap f).entries = (List.range MaxInstances).map (fun i => (mkID i, f i)) := by
  simp only [fullMap]

theorem fullMap_len {V : Type} (f : Nat → V) : (fullMap f).len = MaxInstances := by
  simp [fullMap_entries, GoMap.len]

theorem fullMap_get? {V : Type} (f : Nat → V) (i : Nat) (hi : i < MaxInstances) :
    (fullMap f).get? (mkID i) = some (f i) := by
  rw [GoMap.get?_eq_some_iff, fullMap_entries]
  exact List.mem_map.2 ⟨i, List.mem_range.2 hi, rfl⟩

theorem fullMap_get?_some {V : Type} (f : Nat → V) (id : InstanceID) (v : V)
    (h : (fullMap f).get? id = some v) : ∃ i, i < MaxInstances ∧ id = mkID i ∧ v = f i := by
  rw [GoMap.get?_eq_some_iff, fullMap_entries] at h
  obtain ⟨i, hi, he⟩ := List.mem_map.1 h
  refine ⟨i, List.mem_range.1 hi, ?_, ?_⟩
  · exact (congrArg Prod.fst he).symm
  · exact (congrArg Prod.snd he).symm

theorem fullMap_keys {V : Type} (f : Nat → V) :
    (fullMap f).keys = (List.range MaxInstances).map mkID := by
  simp [fullMap_entries, GoMap.keys, Function.comp_def]

theorem fullMap_get?_none {V : Type} (f : Nat → V) (n : Nat) (h1 : MaxInstances ≤ n)
    (h2 : n < 256 ^ 24) : (fullMap f).get? (mkID n) = none := by
  rw [GoMap.get?_eq_none_iff, fullMap_keys]
  intro hm
  obtain ⟨i, hi, he⟩ := List.mem_map.1 hm
  have hi' : i < 1024 := List.mem_range.1 hi
  have h1' : 1024 ≤ n := h1
  have h := congrArg Fin.val he
  simp only [mkID] at h
  omega

theorem fullSwitch_keysAgree (f : Nat → Time) : (fullSwitch f).keysAgree := by
  rw [keysAgree_iff]
  intro id
  simp only [fullSwitch, toySwitch, fullMap_keys]

theorem toy_passesChecks (batch : MultipleSignedTransports) (regs : GoMap InstanceID Time)
    (insts : GoMap InstanceID (instWrapper Nat)) (reqID : InstanceID) :
    passesChecks (toyEnv batch) (toySwitch regs insts) ⟨1, reqID, [1], [2]⟩ [] [1] init4
      ⟨3233, 17⟩ :=
  ⟨rfl, rfl, rfl, rfl, [1], rfl, rfl⟩

end Admission

/-! ## Facts about routing -/

section Routing

variable {LocalOwner : Type}

theorem marshalLoop_of_reserialized (env : Env LocalOwner) (msgs : List SignedTransport)
    (parts : List Bytes) (acc : Bytes) (h : reserialized env msgs parts) :
    marshalLoop env msgs acc = .ok (acc ++ parts.flatten) := by
  unfold reserialized at h
  induction h generalizing acc with
  | nil => simp [marshalLoop]
  | cons hab _ ih =>
    simp only [marshalLoop, hab, ih, List.flatten_cons, List.append_assoc]

theorem reserialized_of_marshalLoop (env : Env LocalOwner) (msgs : List SignedTransport)
    (acc bs : Bytes) (h : marshalLoop env msgs acc = .ok bs) :
    ∃ parts, reserialized env msgs parts ∧ bs = acc ++ parts.flatten := by
  induction msgs generalizing acc with
  | nil =>
    simp only [marshalLoop, Except.ok.injEq] at h
    exact ⟨[], List.Forall₂.nil, by simp [h]⟩
  | cons ts rest ih =>
    unfold marshalLoop at h
    split at h
    · cases h
    · rename_i tsBytes hts
      obtain ⟨parts, hparts, hbs⟩ := ih _ h
      exact ⟨tsBytes :: parts, List.Forall₂.cons hts hparts, by
        simp [hbs, List.append_assoc]⟩

theorem reserialized_unique (env : Env LocalOwner) (msgs : List SignedTransport)
    (p q : List Bytes) (hp : reserialized env msgs p) (hq : reserialized env msgs q) :
    p.flatten = q.flatten := by
  have h1 := marshalLoop_of_reserialized env msgs p [] hp
  have h2 := marshalLoop_of_reserialized env msgs q [] hq
  rw [h1] at h2
  simpa using h2

theorem instAfter_cons (env : Env LocalOwner) (inst : instWrapper LocalOwner)
    (ts : SignedTransport) (rest : List SignedTransport) :
    instAfter env inst (ts :: rest) = instAfter env (inst.Process env ts).2 rest := rfl

/-- When every call of `Process` succeeds the loop visits all messages. -/
theorem processLoop_all_ok (env : Env LocalOwner) (id : InstanceID)
    (msgs : List SignedTransport) (inst : instWrapper LocalOwner) (trace : List Event)
    (h : ∀ j ts, msgs[j]? = some ts →
      ((instAfter env inst (msgs.take j)).Process env ts).1 = none) :
    processLoop env id msgs inst trace
      = (none, instAfter env inst msgs, trace ++ msgs.map (Event.Process id)) := by
  induction msgs generalizing inst trace with
  | nil => simp [processLoop, instAfter]
  | cons ts rest ih =>
    have h0 : (inst.Process env ts).1 = none := h 0 ts (List.getElem?_cons_zero ..)
    have hrest : ∀ j ts', rest[j]? = some ts' →
        ((instAfter env (inst.Process env ts).2 (rest.take j)).Process env ts').1 = none := by
      intro j ts' hj
      have := h (j + 1) ts' (by simpa using hj)
      simpa [instAfter_cons] using this
    rw [instAfter_cons]
    unfold processLoop
    have hpair : inst.Process env ts = (none, (inst.Process env ts).2) := Prod.ext h0 rfl
    split
    · rename_i e inst1 heq
      rw [heq] at h0
      cases h0
    · rename_i inst1 heq
      have hi : inst1 = (inst.Process env ts).2 := by rw [heq]
      rw [hi, ih _ _ hrest]
      simp

/-- When `Process` first fails on the message at place `k` the loop stops
there. -/
theorem processLoop_fail (env : Env LocalOwner) (id : InstanceID)
    (msgs : List SignedTransport) (inst : instWrapper LocalOwner) (trace : List Event)
    (k : Nat) (tsk : SignedTransport) (e : String) (hk : msgs[k]? = some tsk)
    (hbefore : ∀ j ts, j < k → msgs[j]? = some ts →
      ((instAfter env inst (msgs.take j)).Process env ts).1 = none)
    (hfail : ((instAfter env inst (msgs.take k)).Process env tsk).1 = some e) :
    processLoop env id msgs inst trace
      = (some e, instAfter env inst (msgs.take (k + 1)),
          trace ++ (msgs.take (k + 1)).map (Event.Process id)) := by
  induction msgs generalizing inst trace k with
  | nil => simp at hk
  | cons ts rest ih =>
    cases k with
    | zero =>
      simp only [List.getElem?_cons_zero, Option.some.injEq] at hk
      subst hk
      simp only [List.take_zero, instAfter, List.foldl_nil] at hfail
      unfold processLoop
      split
      · rename_i e' inst1 heq
        rw [heq] at hfail
        simp only [Option.some.injEq] at hfail
        subst hfail
        have hi : inst1 = (inst.Process env ts).2 := by rw [heq]
        simp [instAfter, hi]
      · rename_i inst1 heq
        rw [heq] at hfail
        cases hfail
    | succ k =>
      have h0 : (inst.Process env ts).1 = none := hbefore 0 ts (Nat.succ_pos k)
        (List.getElem?_cons_zero ..)
      have hk' : rest[k]? = some tsk := by simpa using hk
      have hrest : ∀ j ts', j < k → rest[j]? = some ts' →
          ((instAfter env (inst.Process env ts).2 (rest.take j)).Process env ts').1 = none := by
        intro j ts' hjk hj
        have := hbefore (j + 1) ts' (Nat.succ_lt_succ hjk) (by simpa using hj)
        simpa [instAfter_cons] using this
      have hfail' : ((instAfter env (inst.Process env ts).2 (rest.take k)).Process env tsk).1
          = some e := by
        simpa [instAfter_cons] using hfail
      unfold processLoop
      split
      · rename_i e' inst1 heq
        rw [heq] at h0
        cases h0
      · rename_i inst1 heq
        have hi : inst1 = (inst.Process env ts).2 := by rw [heq]
        rw [hi, ih _ _ k hk' hrest hfail']
        simp [instAfter_cons]

/-- The part of `ProcessMessage` after the signature of the batch has been
verified. -/
theorem ProcessMessage_of_verified (env : Env LocalOwner) (s : Switch LocalOwner)
    (dkgMsg : Bytes) (st : MultipleSignedTransports) (inst : instWrapper LocalOwner)
    (parts : List Bytes)
    (hdec : env.MultipleUnmarshalSSZ dkgMsg = .ok st)
    (hget : s.Instances.get? st.Identifier = some inst)
    (hmar : reserialized env st.Messages parts)
    (hver : inst.VerifyInitiatorMessage env parts.flatten st.Signature = none) :
    s.ProcessMessage env dkgMsg =
      match processLoop env st.Identifier st.Messages inst [] with
      | (some e, inst1, trace) =>
        (.err (.pmProcess e),
          { s with Instances := s.Instances.mutate st.Identifier inst1 }, trace)
      | (none, inst1, trace) =>
        match inst1.ReadResponse env with
        | none =>
          (.blocked, { s with Instances := s.Instances.mutate st.Identifier inst1 },
            trace ++ [Event.ReadResponse st.Identifier])
        | some (resp, inst2) =>
          (.ret resp, { s with Instances := s.Instances.mutate st.Identifier inst2 },
            trace ++ [Event.ReadResponse st.Identifier]) := by
  have hm := marshalLoop_of_reserialized env st.Messages parts [] hmar
  rw [List.nil_append] at hm
  unfold Switch.ProcessMessage
  simp only [hdec, hget, hm, hver]

theorem processLoop_trace (env : Env LocalOwner) (id : InstanceID)
    (msgs : List SignedTransport) (inst : instWrapper LocalOwner) (trace : List Event)
    (ev : Event) (h : ev ∈ (processLoop env id msgs inst trace).2.2) :
    ev ∈ trace ∨ ∃ ts, ts ∈ msgs ∧ ev = Event.Process id ts := by
  induction msgs generalizing inst trace with
  | nil => exact Or.inl h
  | cons ts rest ih =>
    unfold processLoop at h
    split at h
    · rcases List.mem_append.1 h with h1 | h1
      · exact Or.inl h1
      · exact Or.inr ⟨ts, List.mem_cons_self _ _, List.mem_singleton.1 h1⟩
    · rcases ih _ _ h with h1 | ⟨ts', hts', hev⟩
      · rcases List.mem_append.1 h1 with h2 | h2
        · exact Or.inl h2
        · exact Or.inr ⟨ts, List.mem_cons_self _ _, List.mem_singleton.1 h2⟩
      · exact Or.inr ⟨ts', List.mem_cons_of_mem _ hts', hev⟩

theorem verifyRSA_of_verified (env : Env LocalOwner) (inst : instWrapper LocalOwner)
    (msg sig : Bytes) (h : inst.VerifyInitiatorMessage env msg sig = none) :
    env.VerifyRSA inst.InitiatorPublicKey msg sig = none := by
  unfold instWrapper.VerifyInitiatorMessage at h
  split at h
  · cases h
  · split at h
    · cases h
    · assumption

theorem not_verified_of_verifyRSA (env : Env LocalOwner) (inst : instWrapper LocalOwner)
    (msg sig : Bytes) (h : env.VerifyRSA inst.InitiatorPublicKey msg sig ≠ none) :
    ∃ e, inst.VerifyInitiatorMessage env msg sig = some e := by
  cases hv : inst.VerifyInitiatorMessage env msg sig with
  | none => exact absurd (verifyRSA_of_verified env inst msg sig hv) h
  | some e => exact ⟨e, rfl⟩

/-- A call of `Process` in the trace of `ProcessMessage` is on the instance
under the identifier of the batch, after the signature of the batch has been
verified. -/
theorem ProcessMessage_trace (env : Env LocalOwner) (s : Switch LocalOwner)
    (dkgMsg : Bytes) (st : MultipleSignedTransports)
    (hdec : env.MultipleUnmarshalSSZ dkgMsg = .ok st) (id : InstanceID) (ts : SignedTransport)
    (h : Event.Process id ts ∈ (s.ProcessMessage env dkgMsg).2.2) :
    id = st.Identifier ∧ ∃ inst parts, s.Instances.get? st.Identifier = some inst ∧
      reserialized env st.Messages parts ∧
      inst.VerifyInitiatorMessage env parts.flatten st.Signature = none := by
  unfold Switch.ProcessMessage at h
  simp only [hdec] at h
  split at h
  · cases h
  · rename_i inst hget
    split at h
    · cases h
    · rename_i bs hm
      obtain ⟨parts, hparts, hbs⟩ := reserialized_of_marshalLoop env _ _ _ hm
      rw [List.nil_append] at hbs
      subst hbs
      split at h
      · cases h
      · rename_i hver
        have hid : id = st.Identifier := by
          have hcases : Event.Process id ts
              ∈ (processLoop env st.Identifier st.Messages inst []).2.2 := by
            split at h
            · rename_i heq
              rw [heq]
              exact h
            · rename_i heq
              rw [heq]
              split at h
              · rcases List.mem_append.1 h with h1 | h1
                · exact h1
                · cases List.mem_singleton.1 h1
              · rcases List.mem_append.1 h with h1 | h1
                · exact h1
                · cases List.mem_singleton.1 h1
          rcases processLoop_trace env _ _ _ _ _ hcases with h1 | ⟨ts', _, hev⟩
          · cases h1
          · cases hev
            rfl
        exact ⟨hid, inst, parts, hget, hparts, hver⟩

end Routing

/-! ## Facts about result saving -/

section Results

variable {LocalOwner : Type}

/-- What a passed `VerifyIncomingMessage` tells. -/
theorem VerifyIncomingMessage_ok (env : Env LocalOwner) (renv : ResultEnv)
    (s : Switch LocalOwner) (incMsg : SignedTransport) (operatorID : Nat)
    (h : s.VerifyIncomingMessage env renv incMsg = .ok operatorID) :
    incMsg.Message.Type_ = ResultMessageType ∧
      ∃ resData inst msgBytes,
        renv.ResultDataUnmarshalSSZ incMsg.Message.Data = .ok resData ∧
        s.Instances.get? resData.Identifier = some inst ∧
        env.TransportMarshalSSZ incMsg.Message = .ok msgBytes ∧
        inst.VerifyInitiatorMessage env msgBytes incMsg.Signature = none ∧
        env.OperatorIDByPubKey resData.Operators s.PubKeyBytes = .ok operatorID := by
  unfold Switch.VerifyIncomingMessage at h
  split at h
  · cases h
  · rename_i htype
    split at h
    · cases h
    · rename_i resData hdec
      split at h
      · cases h
      · rename_i inst hget
        split at h
        · cases h
        · rename_i msgBytes hm
          split at h
          · cases h
          · rename_i hver
            split at h
            · cases h
            · rename_i oid hop
              cases h
              exact ⟨not_not.1 htype, resData, inst, msgBytes, hdec, hget, hm, hver, hop⟩

/-- What a call of the writer tells about the last part of `SaveResultData`. -/
theorem saveResults_written (renv : ResultEnv) (depJson : Option DepositDataCLI)
    (ksJson : Option KeySharesCLI) (proof : List (Option SignedProof)) (outputPath : String)
    (args : WriteArgs) (res : Option String)
    (h : saveResults renv depJson ksJson proof outputPath = .written args res) :
    ∃ dep withdrawCreds, depJson = some dep ∧
      renv.hexDecodeString dep.WithdrawalCredentials = .ok withdrawCreds ∧
      (renv.ParseWithdrawalCredentials withdrawCreds).1 = ETH1WithdrawalPrefixByte ∧
      res = renv.WriteResults args := by
  unfold saveResults at h
  dsimp only at h
  split at h
  · cases h
  · rename_i dep
    split at h
    · cases h
    · rename_i creds hhex
      split at h
      · cases h
      · rename_i hpre
        split at h
        · cases h
        · split at h
          · cases h
          · cases h
            exact ⟨dep, creds, rfl, hhex, not_not.1 hpre, rfl⟩

/-- The writer is called only for a result message, signed by the pinned
initiator of the instance registered under the identifier of its result data,
whose deposit data carry the ETH1 withdrawal prefix. -/
theorem SaveResultData_written (env : Env LocalOwner) (renv : ResultEnv)
    (s : Switch LocalOwner) (incMsg : SignedTransport) (outputPath : String)
    (args : WriteArgs) (res : Option String)
    (h : s.SaveResultData env renv incMsg outputPath = .written args res) :
    incMsg.Message.Type_ = ResultMessageType ∧
      ∃ resData inst msgBytes dep withdrawCreds,
        renv.ResultDataUnmarshalSSZ incMsg.Message.Data = .ok resData ∧
        s.Instances.get? resData.Identifier = some inst ∧
        env.TransportMarshalSSZ incMsg.Message = .ok msgBytes ∧
        env.VerifyRSA inst.InitiatorPublicKey msgBytes incMsg.Signature = none ∧
        resData.DepositData ≠ [] ∧
        renv.UnmarshalDepositData resData.DepositData = .ok (some dep) ∧
        renv.hexDecodeString dep.WithdrawalCredentials = .ok withdrawCreds ∧
        (renv.ParseWithdrawalCredentials withdrawCreds).1 = ETH1WithdrawalPrefixByte ∧
        res = renv.WriteResults args := by
  unfold Switch.SaveResultData at h
  split at h
  · cases h
  · rename_i resData hdec
    split at h
    · cases h
    · rename_i oid hv
      obtain ⟨htype, resData', inst, msgBytes, hdec', hget, hm, hver, _⟩ :=
        VerifyIncomingMessage_ok env renv s incMsg oid hv
      rw [hdec] at hdec'
      cases hdec'
      split at h
      · cases h
      · rename_i depJson hdep
        split at h
        · cases h
        · split at h
          · cases h
          · obtain ⟨dep, creds, hsome, hhex, hpre, hres⟩ :=
              saveResults_written renv _ _ _ _ args res h
            subst hsome
            have hne : resData.DepositData ≠ [] := by
              intro hnil
              rw [hnil] at hdep
              simp at hdep
            have hlen : resData.DepositData.length ≠ 0 := by
              intro h0
              exact hne (List.length_eq_zero.1 h0)
            rw [if_pos hlen] at hdep
            exact ⟨htype, resData, inst, msgBytes, dep, creds, hdec, hget, hm,
              verifyRSA_of_verified env inst _ _ hver, hne, hdep, hhex, hpre, hres⟩

/-- With no instance under the identifier of the result data of a result
message, `SaveResultData` returns `ErrMissingInstance`. -/
theorem SaveResultData_missing (env : Env LocalOwner) (renv : ResultEnv)
    (s : Switch LocalOwner) (incMsg : SignedTransport) (outputPath : String)
    (resData : ResultData) (htype : incMsg.Message.Type_ = ResultMessageType)
    (hdec : renv.ResultDataUnmarshalSSZ incMsg.Message.Data = .ok resData)
    (hget : s.Instances.get? resData.Identifier = none) :
    s.SaveResultData env renv incMsg outputPath = .err .ErrMissingInstance := by
  have hv : s.VerifyIncomingMessage env renv incMsg = .error .ErrMissingInstance := by
    unfold Switch.VerifyIncomingMessage
    rw [if_neg (not_not.2 htype)]
    simp only [hdec, hget]
  unfold Switch.SaveResultData
  simp only [hdec, hv]

/-- A result message that passes `VerifyIncomingMessage`, with empty deposit
data and key shares and proofs that parse, makes `SaveResultData` read a
field through the nil `depJson`. -/
theorem SaveResultData_no_deposit (env : Env LocalOwner) (renv : ResultEnv)
    (s : Switch LocalOwner) (incMsg : SignedTransport) (outputPath : String)
    (resData : ResultData) (operatorID : Nat) (ksJson : Option KeySharesCLI)
    (proof : List (Option SignedProof))
    (hdec : renv.ResultDataUnmarshalSSZ incMsg.Message.Data = .ok resData)
    (hv : s.VerifyIncomingMessage env renv incMsg = .ok operatorID)
    (hempty : resData.DepositData = [])
    (hks : renv.UnmarshalKeyShares resData.KeysharesData = .ok ksJson)
    (hpr : renv.UnmarshalProofs resData.Proofs = .ok proof) :
    s.SaveResultData env renv incMsg outputPath = .panic .nilDereference := by
  unfold Switch.SaveResultData
  simp only [hdec, hv, hempty, hks, hpr, List.length_nil, ne_eq, not_true_eq_false, if_false]
  rfl

/-- A result message that passes `VerifyIncomingMessage` and carries the ETH1
prefix, whose key shares parse to a value without shares, makes
`SaveResultData` index an empty slice. -/
theorem SaveResultData_no_shares (env : Env LocalOwner) (renv : ResultEnv)
    (s : Switch LocalOwner) (incMsg : SignedTransport) (outputPath : String)
    (resData : ResultData) (operatorID : Nat) (dep : DepositDataCLI) (withdrawCreds : Bytes)
    (proof : List (Option SignedProof))
    (hdec : renv.ResultDataUnmarshalSSZ incMsg.Message.Data = .ok resData)
    (hv : s.VerifyIncomingMessage env renv incMsg = .ok operatorID)
    (hne : resData.DepositData.length ≠ 0)
    (hdep : renv.UnmarshalDepositData resData.DepositData = .ok (some dep))
    (hks : renv.UnmarshalKeyShares resData.KeysharesData = .ok (some ⟨[]⟩))
    (hpr : renv.UnmarshalProofs resData.Proofs = .ok proof)
    (hhex : renv.hexDecodeString dep.WithdrawalCredentials = .ok withdrawCreds)
    (hpre : (renv.ParseWithdrawalCredentials withdrawCreds).1 = ETH1WithdrawalPrefixByte) :
    s.SaveResultData env renv incMsg outputPath = .panic .indexOutOfRange := by
  unfold Switch.SaveResultData
  simp only [hdec, hv, if_pos hne, hdep, hks, hpr]
  unfold saveResults
  simp only [hhex, hpre, ne_eq, not_true_eq_false, if_false]

end Results

/-! ## Facts about the init validator -/

theorem UniqueAndOrderedOperators_iff (ops : List Operator) :
    UniqueAndOrderedOperators ops = true ↔ List.Pairwise (· < ·) (ops.map Operator.ID) := by
  rw [← List.chain'_iff_pairwise]
  induction ops with
  | nil => simp [UniqueAndOrderedOperators]
  | cons a rest ih =>
    cases rest with
    | nil => simp [UniqueAndOrderedOperators]
    | cons b rest =>
      simp only [UniqueAndOrderedOperators, Bool.and_eq_true, decide_eq_true_eq, List.map_cons,
        List.chain'_cons]
      rw [ih]
      simp only [List.map_cons]

theorem validOperatorCount_iff (n : Nat) :
    validOperatorCount n = true ↔ n = 4 ∨ n = 7 ∨ n = 10 ∨ n = 13 := by
  simp [validOperatorCount, or_assoc]

/-- The model of `ValidateInitMessage` gives what `TestValidateInitMessage`
of `spec/testing/init_test.go` expects, case by case. -/
theorem ValidateInitMessage_tests :
    ValidateInitMessage (testInit (GenerateOperators 4) 3) = none ∧
    ValidateInitMessage (testInit
        [⟨1, [0]⟩, ⟨2, [1]⟩, ⟨4, [3]⟩, ⟨3, [2]⟩] 3)
      = some "operators not unique or not ordered" ∧
    ValidateInitMessage (testInit
        [⟨1, [0]⟩, ⟨2, [1]⟩, ⟨3, [2]⟩, ⟨3, [2]⟩] 3)
      = some "operators not unique or not ordered" ∧
    ValidateInitMessage (testInit [] 3) = some "threshold set is invalid" ∧
    ValidateInitMessage (testInit ((GenerateOperators 4).take 3) 3)
      = some "threshold set is invalid" ∧
    ValidateInitMessage (testInit ((GenerateOperators 7).take 5) 3)
      = some "threshold set is invalid" ∧
    ValidateInitMessage (testInit (GenerateOperators 4) 2)
      = some "threshold set is invalid" := by
  decide

/-! ## The properties -/

section Properties

variable {LocalOwner : Type}

/-- C1 (instance cap): starting from the switch of `NewSwitch`, after any
list of `InitInstance` and `CleanInstances` calls made one after the other,
each with any arguments, any outer world and any clock, `Instances` holds at
most `MaxInstances` = 1024 entries. -/
theorem instance_cap (pv : RSAPrivateKey) (ver pkBytes : Bytes) (id : Nat)
    (calls : List (Call LocalOwner)) :
    (runCalls (NewSwitch pv ver pkBytes id) calls).Instances.len ≤ MaxInstances ∧
      MaxInstances = 1024 := by
  refine ⟨(runCalls_inv _ calls ?_ ?_).2, rfl⟩
  · exact ⟨fun _ h => h, fun _ h => h⟩
  · exact Nat.zero_le _

/-- C2 (keyset invariant): when `Instances` and `InstanceInitTime` have the
same keys, they have the same keys after `InitInstance`, whatever it returns,
and after `CleanInstances`; both maps of `NewSwitch` are empty. -/
theorem keyset_invariant (s : Switch LocalOwner) (h : s.keysAgree) (env : Env LocalOwner)
    (clk : Nat → Time) (reqID : InstanceID) (initMsg : Transport)
    (initiatorPub initiatorSignature : Bytes) (tick : Nat)
    (pv : RSAPrivateKey) (ver pkBytes : Bytes) (id : Nat) :
    (s.InitInstance env clk reqID initMsg initiatorPub initiatorSignature).2.keysAgree ∧
      (s.CleanInstances clk tick).2.1.keysAgree ∧
      (NewSwitch pv ver pkBytes id : Switch LocalOwner).Instances.entries = [] ∧
      (NewSwitch pv ver pkBytes id : Switch LocalOwner).InstanceInitTime.entries = [] := by
  refine ⟨InitInstance_keysAgree env clk s reqID initMsg initiatorPub initiatorSignature h,
    ?_, rfl, rfl⟩
  rw [CleanInstances_switch]
  exact keysAgree_deleteAll s _ h

theorem keyset_invariant_witness :
    switch5.keysAgree ∧
      (switch5.InitInstance (toyEnv batch0) (fun _ => 1) 9 initMsg9 [] [1]).2.keysAgree ∧
      (switch5.CleanInstances (fun _ => 1) 0).2.1.keysAgree ∧
      (NewSwitch ⟨⟨3233, 17⟩, 2753⟩ [2] [48] 1 : Switch Nat).Instances.entries = [] ∧
      (NewSwitch ⟨⟨3233, 17⟩, 2753⟩ [2] [48] 1 : Switch Nat).InstanceInitTime.entries = [] :=
  ⟨by decide, keyset_invariant switch5 (by decide) (toyEnv batch0) (fun _ => 1) 9 initMsg9 [] [1] 0
    ⟨⟨3233, 17⟩, 2753⟩ [2] [48] 1⟩

/-- C3 (sweep correctness): `CleanInstances` run at the instant `now` removes
from both maps every id whose init time `t` has `now - t > MaxInstanceTime`
(five minutes), leaves the entries of every other id as they were, and
returns the number of ids removed; every id left in `InstanceInitTime` has
`now - t ≤ MaxInstanceTime`. -/
theorem sweep_correct (s : Switch LocalOwner) (now : Time) (tick : Nat) :
    (∀ id t, s.InstanceInitTime.get? id = some t → now - t > MaxInstanceTime →
      (s.CleanInstances (fun _ => now) tick).2.1.InstanceInitTime.get? id = none ∧
      (s.CleanInstances (fun _ => now) tick).2.1.Instances.get? id = none) ∧
    (∀ id, (∀ t, s.InstanceInitTime.get? id = some t → now - t ≤ MaxInstanceTime) →
      (s.CleanInstances (fun _ => now) tick).2.1.InstanceInitTime.get? id
        = s.InstanceInitTime.get? id ∧
      (s.CleanInstances (fun _ => now) tick).2.1.Instances.get? id = s.Instances.get? id) ∧
    (s.CleanInstances (fun _ => now) tick).1
      = (s.InstanceInitTime.entries.filter
          (fun e => decide (now - e.2 > MaxInstanceTime))).length ∧
    (∀ id t, (s.CleanInstances (fun _ => now) tick).2.1.InstanceInitTime.get? id = some t →
      now - t ≤ MaxInstanceTime) ∧
    MaxInstanceTime = 5 * 60 * 1000000000 := by
  refine ⟨?_, ?_, ?_, ?_, by decide⟩
  · intro id t ht hst
    have hmem : id ∈ staleIds (fun _ => now) s.InstanceInitTime.entries tick :=
      (mem_staleIds_iff_get? now _ tick id).2 ⟨t, ht, hst⟩
    rw [sweep_initTime_get?, sweep_instances_get?, if_pos hmem, if_pos hmem]
    exact ⟨rfl, rfl⟩
  · intro id hid
    have hmem : id ∉ staleIds (fun _ => now) s.InstanceInitTime.entries tick := by
      intro hm
      obtain ⟨t, ht, hst⟩ := (mem_staleIds_iff_get? now _ tick id).1 hm
      exact absurd (hid t ht) (not_le.2 hst)
    rw [sweep_initTime_get?, sweep_instances_get?, if_neg hmem, if_neg hmem]
    exact ⟨rfl, rfl⟩
  · rw [Switch.CleanInstances, cleanLoop_eq, staleIds_const_eq]
    simp [stale]
  · intro id t ht
    rw [sweep_initTime_get?] at ht
    by_cases hmem : id ∈ staleIds (fun _ => now) s.InstanceInitTime.entries tick
    · rw [if_pos hmem] at ht
      cases ht
    · rw [if_neg hmem] at ht
      by_contra hgt
      exact hmem ((mem_staleIds_iff_get? now _ tick id).2 ⟨t, ht, not_le.1 hgt⟩)

/-- C4 (version gating): when the `Version` bytes of the init transport differ
from `Switch.Version`, `InitInstance` returns the `wrong version` error and
leaves the switch, so both maps, as it was, whatever the payload, the key,
the signature and the number of registered instances. -/
theorem version_gating (env : Env LocalOwner) (clk : Nat → Time) (s : Switch LocalOwner)
    (reqID : InstanceID) (initMsg : Transport) (initiatorPub initiatorSignature : Bytes)
    (h : initMsg.Version ≠ s.Version) :
    s.InitInstance env clk reqID initMsg initiatorPub initiatorSignature
      = (.err (.wrongVersion initMsg.Version s.Version), s) := by
  unfold Switch.InitInstance
  rw [if_pos h]

theorem version_gating_witness :
    (⟨1, 9, [1], [1]⟩ : Transport).Version ≠ switch5.Version ∧
      switch5.InitInstance (toyEnv batch0) (fun _ => 1) 9 ⟨1, 9, [1], [1]⟩ [] [1]
        = (.err (.wrongVersion [1] [2]), switch5) :=
  ⟨by decide, version_gating (toyEnv batch0) (fun _ => 1) switch5 9 ⟨1, 9, [1], [1]⟩ [] [1]
    (by decide)⟩

/-- C5, as amended (re-init within the age window): for an init message that
passes the version check, the validation and the signature check, whose
ceremony id is registered with init time `t` and `now < t + MaxInstanceTime`:
with fewer than `MaxInstances` instances registered `InitInstance` fails with
`ErrAlreadyExists` and changes nothing; with `MaxInstances` or more it fails
with `ErrAlreadyExists` when the sweep brings the number below `MaxInstances`
and with `ErrMaxInstances` when it does not. -/
theorem reinit_within_window (env : Env LocalOwner) (s : Switch LocalOwner) (now : Time)
    (reqID : InstanceID) (initMsg : Transport) (initiatorPub initiatorSignature : Bytes)
    (init : Init) (initiatorPubKey : RSAPublicKey) (inst : instWrapper LocalOwner) (t : Time)
    (hp : passesChecks env s initMsg initiatorPub initiatorSignature init initiatorPubKey)
    (hreg : s.Instances.get? reqID = some inst)
    (ht : s.InstanceInitTime.get? reqID = some t)
    (hnow : now < t + MaxInstanceTime) :
    (s.Instances.len < MaxInstances →
      s.InitInstance env (fun _ => now) reqID initMsg initiatorPub initiatorSignature
        = (.err .ErrAlreadyExists, s)) ∧
    (MaxInstances ≤ s.Instances.len →
      (s.Instances.len : Int) - ((s.CleanInstances (fun _ => now) 0).1 : Int) < MaxInstances →
      (s.InitInstance env (fun _ => now) reqID initMsg initiatorPub initiatorSignature).1
        = .err .ErrAlreadyExists) ∧
    (MaxInstances ≤ s.Instances.len →
      (s.Instances.len : Int) - ((s.CleanInstances (fun _ => now) 0).1 : Int) ≥ MaxInstances →
      (s.InitInstance env (fun _ => now) reqID initMsg initiatorPub initiatorSignature).1
        = .err .ErrMaxInstances) := by
  rw [InitInstance_of_passes env _ s reqID initMsg initiatorPub initiatorSignature init
    initiatorPubKey hp, CleanInstances_count]
  have hlive : ∀ t', s.InstanceInitTime.get? reqID = some t' → ¬ stale now t' := by
    intro t' ht'
    rw [← get?_unique _ _ _ _ ht ht']
    exact not_stale_of_lt now t hnow
  refine ⟨?_, ?_, ?_⟩
  · intro hlt
    apply register_of_locked_err env _ s s reqID init initiatorPubKey .ErrAlreadyExists (0 + 1)
    rw [lockedSection_lt _ s reqID hlt]
    exact checkExisting_live now 0 s reqID inst t hreg ht hnow
  · intro hge hroom
    have hkeep := deleteAll_stale_get? now s reqID hlive
    rw [register_of_locked_err env _ s _ reqID init initiatorPubKey .ErrAlreadyExists
      (s.InstanceInitTime.entries.length + 1)]
    rw [lockedSection_ge _ s reqID hge, if_neg (not_le.2 hroom)]
    exact checkExisting_live now _ _ reqID inst t (hkeep.1.trans hreg) (hkeep.2.trans ht) hnow
  · intro hge hsat
    rw [register_of_locked_err env _ s _ reqID init initiatorPubKey .ErrMaxInstances
      s.InstanceInitTime.entries.length]
    rw [lockedSection_ge _ s reqID hge, if_pos hsat]

theorem reinit_within_window_witness :
    passesChecks (toyEnv batch0) switch5 ⟨1, 5, [1], [2]⟩ [] [1] init4 ⟨3233, 17⟩ ∧
      switch5.Instances.get? 5 = some ⟨0, ⟨3233, 17⟩⟩ ∧
      switch5.InstanceInitTime.get? 5 = some 0 ∧
      (1 : Time) < 0 + MaxInstanceTime ∧
      switch5.Instances.len < MaxInstances ∧
      switch5.InitInstance (toyEnv batch0) (fun _ => 1) 5 ⟨1, 5, [1], [2]⟩ [] [1]
        = (.err .ErrAlreadyExists, switch5) :=
  ⟨toy_passesChecks batch0 _ _ 5, by decide, by decide, by decide, by decide,
    (reinit_within_window (toyEnv batch0) switch5 1 5 ⟨1, 5, [1], [2]⟩ [] [1] init4 ⟨3233, 17⟩
      ⟨0, ⟨3233, 17⟩⟩ 0 (toy_passesChecks batch0 _ _ 5) (by decide) (by decide)
      (by decide)).1 (by decide)⟩

/-- C5 as stated fails: on a switch holding `MaxInstances` ceremonies, all
created at time 0, a second init for the registered ceremony `mkID 0` at time
1, which passes all checks, ends with `ErrMaxInstances`, not with
`ErrAlreadyExists`. -/
theorem reinit_saturated_counterexample :
    passesChecks (toyEnv batch0) (fullSwitch (fun _ => 0)) ⟨1, mkID 0, [1], [2]⟩ [] [1] init4
        ⟨3233, 17⟩ ∧
      (fullSwitch (fun _ => 0)).Instances.get? (mkID 0) = some ⟨0, ⟨3233, 17⟩⟩ ∧
      (fullSwitch (fun _ => 0)).InstanceInitTime.get? (mkID 0) = some 0 ∧
      (1 : Time) < 0 + MaxInstanceTime ∧
      (fullSwitch (fun _ => 0)).Instances.len = MaxInstances ∧
      ((fullSwitch (fun _ => 0)).InitInstance (toyEnv batch0) (fun _ => 1) (mkID 0)
        ⟨1, mkID 0, [1], [2]⟩ [] [1]).1 = .err .ErrMaxInstances ∧
      ((fullSwitch (fun _ => 0)).InitInstance (toyEnv batch0) (fun _ => 1) (mkID 0)
        ⟨1, mkID 0, [1], [2]⟩ [] [1]).1 ≠ .err .ErrAlreadyExists := by
  have hrun : ((fullSwitch (fun _ => 0)).InitInstance (toyEnv batch0) (fun _ => 1) (mkID 0)
      ⟨1, mkID 0, [1], [2]⟩ [] [1]).1 = .err .ErrMaxInstances := by
    have hp : passesChecks (toyEnv batch0) (fullSwitch (fun _ => 0)) ⟨1, mkID 0, [1], [2]⟩ []
        [1] init4 ⟨3233, 17⟩ := toy_passesChecks batch0 _ _ _
    rw [InitInstance_of_passes _ _ _ _ _ _ _ init4 ⟨3233, 17⟩ hp]
    rw [register_of_locked_err (toyEnv batch0) _ (fullSwitch (fun _ => 0))
      (fullSwitch (fun _ => 0)) (mkID 0) init4 ⟨3233, 17⟩ .ErrMaxInstances
      (fullSwitch (fun _ => 0)).InstanceInitTime.entries.length]
    apply lockedSection_saturated_live
    · exact le_of_eq (fullMap_len _).symm
    · intro id t ht
      obtain ⟨i, _, _, hti⟩ := fullMap_get?_some _ id t ht
      rw [hti]
      decide
  refine ⟨toy_passesChecks batch0 _ _ _, fullMap_get? _ 0 (by decide), fullMap_get? _ 0 (by decide),
    by decide, fullMap_len _, hrun, ?_⟩
  rw [hrun]
  decide

/-- C6 (saturation): on a switch with agreeing keys that holds exactly
`MaxInstances` instances, an `InitInstance` call at `now` for a ceremony id
that is not registered, with a message that passes the checks: when no
registered instance is older than `MaxInstanceTime` the call returns
`ErrMaxInstances` and leaves the switch as it was; when a registered instance
is older, the call does not return `ErrMaxInstances`. -/
theorem saturation (env : Env LocalOwner) (s : Switch LocalOwner) (now : Time)
    (reqID : InstanceID) (initMsg : Transport) (initiatorPub initiatorSignature : Bytes)
    (init : Init) (initiatorPubKey : RSAPublicKey)
    (hp : passesChecks env s initMsg initiatorPub initiatorSignature init initiatorPubKey)
    (hk : s.keysAgree) (hlen : s.Instances.len = MaxInstances)
    (hnew : s.Instances.get? reqID = none) :
    ((∀ id t, id ∈ s.Instances.keys → s.InstanceInitTime.get? id = some t →
        now - t ≤ MaxInstanceTime) →
      s.InitInstance env (fun _ => now) reqID initMsg initiatorPub initiatorSignature
        = (.err .ErrMaxInstances, s)) ∧
    ((∃ id t, id ∈ s.Instances.keys ∧ s.InstanceInitTime.get? id = some t ∧
        now - t > MaxInstanceTime) →
      (s.InitInstance env (fun _ => now) reqID initMsg initiatorPub initiatorSignature).1
        ≠ .err .ErrMaxInstances) := by
  rw [InitInstance_of_passes env _ s reqID initMsg initiatorPub initiatorSignature init
    initiatorPubKey hp]
  constructor
  · intro hyoung
    apply register_of_locked_err env _ s s reqID init initiatorPubKey .ErrMaxInstances
      s.InstanceInitTime.entries.length
    apply lockedSection_saturated_live now s reqID (le_of_eq hlen.symm)
    intro id t ht hst
    have hmem : id ∈ s.Instances.keys := hk.2 id ((GoMap.mem_keys_iff _ id).2 ⟨t, ht⟩)
    exact absurd (hyoung id t hmem ht) (not_le.2 hst)
  · rintro ⟨id, t, _, ht, hst⟩
    have hmem : id ∈ staleIds (fun _ => now) s.InstanceInitTime.entries 0 :=
      (mem_staleIds_iff_get? now _ 0 id).2 ⟨t, ht, hst⟩
    have hpos : 0 < (staleIds (fun _ => now) s.InstanceInitTime.entries 0).length :=
      List.length_pos_of_mem hmem
    apply register_of_locked_none env _ s
      (s.deleteAll (staleIds (fun _ => now) s.InstanceInitTime.entries 0)) reqID init
      initiatorPubKey s.InstanceInitTime.entries.length
    rw [lockedSection_ge _ s reqID (le_of_eq hlen.symm), if_neg (by rw [hlen]; omega)]
    apply checkExisting_none
    simp only [Switch.deleteAll, GoMap.get?_deleteAll, hnew, ite_self]

theorem saturation_witness :
    (fullSwitch (fun _ => 0)).InitInstance (toyEnv batch0) (fun _ => 1) (mkID 2000)
        ⟨1, mkID 2000, [1], [2]⟩ [] [1] = (.err .ErrMaxInstances, fullSwitch (fun _ => 0)) ∧
      ((fullSwitch (fun i => if i = 0 then 0 else MaxInstanceTime + 1)).InitInstance
        (toyEnv batch0) (fun _ => MaxInstanceTime + 1) (mkID 2000)
        ⟨1, mkID 2000, [1], [2]⟩ [] [1]).1 ≠ .err .ErrMaxInstances :=
  ⟨(saturation (toyEnv batch0) (fullSwitch (fun _ => 0)) 1 (mkID 2000)
      ⟨1, mkID 2000, [1], [2]⟩ [] [1] init4 ⟨3233, 17⟩ (toy_passesChecks batch0 _ _ _)
      (fullSwitch_keysAgree _) (fullMap_len _)
      (fullMap_get?_none _ 2000 (by decide) (by norm_num))).1
      (fun id t _ ht => by
        obtain ⟨i, _, _, hti⟩ := fullMap_get?_some _ id t ht
        rw [hti]
        decide),
    (saturation (toyEnv batch0) (fullSwitch (fun i => if i = 0 then 0 else MaxInstanceTime + 1))
      (MaxInstanceTime + 1) (mkID 2000)
      ⟨1, mkID 2000, [1], [2]⟩ [] [1] init4 ⟨3233, 17⟩ (toy_passesChecks batch0 _ _ _)
      (fullSwitch_keysAgree _) (fullMap_len _)
      (fullMap_get?_none _ 2000 (by decide) (by norm_num))).2
      ⟨mkID 0, 0, (GoMap.mem_keys_iff _ _).2 ⟨_, fullMap_get? _ 0 (by decide)⟩,
        fullMap_get? _ 0 (by decide), by decide⟩⟩

/-- C7, as amended (aging out on admission): let instance `I` be registered
under `id` with an age at `now` above `MaxInstanceTime`, and let an
`InitInstance` call at `now` pass the version check, the validation and the
signature check. If `Instances` holds `MaxInstances` entries or more, or the
call is for `id` itself, then after the call `id` is absent from both maps,
or else the call is for `id`, it succeeded, and `id` is bound to the newly
constructed instance with init time `now`. -/
theorem aging_out (env : Env LocalOwner) (s : Switch LocalOwner) (now : Time)
    (reqID : InstanceID) (initMsg : Transport) (initiatorPub initiatorSignature : Bytes)
    (init : Init) (initiatorPubKey : RSAPublicKey) (id : InstanceID)
    (I : instWrapper LocalOwner) (t : Time)
    (hp : passesChecks env s initMsg initiatorPub initiatorSignature init initiatorPubKey)
    (hI : s.Instances.get? id = some I) (ht : s.InstanceInitTime.get? id = some t)
    (hst : now - t > MaxInstanceTime)
    (hcase : MaxInstances ≤ s.Instances.len ∨ id = reqID) :
    ((s.InitInstance env (fun _ => now) reqID initMsg initiatorPub initiatorSignature).2.Instances.get?
          id = none ∧
      (s.InitInstance env (fun _ => now) reqID initMsg initiatorPub
          initiatorSignature).2.InstanceInitTime.get? id = none) ∨
    (id = reqID ∧ ∃ resp inst,
      (s.InitInstance env (fun _ => now) reqID initMsg initiatorPub initiatorSignature).1
          = .ret resp ∧
      s.CreateInstance env reqID init initiatorPubKey = .ret (inst, resp) ∧
      (s.InitInstance env (fun _ => now) reqID initMsg initiatorPub
          initiatorSignature).2.Instances.get? id = some inst ∧
      (s.InitInstance env (fun _ => now) reqID initMsg initiatorPub
          initiatorSignature).2.InstanceInitTime.get? id = some now) := by
  rw [InitInstance_of_passes env _ s reqID initMsg initiatorPub initiatorSignature init
    initiatorPubKey hp]
  have habs : (s.lockedSection (fun _ => now) reqID).2.1.Instances.get? id = none ∧
      (s.lockedSection (fun _ => now) reqID).2.1.InstanceInitTime.get? id = none := by
    rcases hcase with hge | heq
    · exact lockedSection_absent_swept _ s reqID id hge
        ((mem_staleIds_iff_get? now _ 0 id).2 ⟨t, ht, hst⟩)
    · subst heq
      exact lockedSection_absent_own now s id I t hI ht hst
  by_cases hret : ∃ resp, (s.register env (fun _ => now) reqID init initiatorPubKey).1 = .ret resp
  · obtain ⟨resp, hresp⟩ := hret
    obtain ⟨inst, _, hc, hsw⟩ := register_ret env _ s reqID init initiatorPubKey resp hresp
    obtain ⟨ids, hids, _⟩ := lockedSection_eq_deleteAll (fun _ => now) s reqID
    rw [hids, CreateInstance_deleteAll] at hc
    rw [hsw]
    by_cases hid : id = reqID
    · right
      refine ⟨hid, resp, inst, hresp, hc, ?_, ?_⟩
      · simp only [GoMap.get?_set, if_pos hid]
      · simp only [GoMap.get?_set, if_pos hid]
    · left
      simp only [GoMap.get?_set, if_neg hid]
      exact habs
  · left
    rw [register_not_ret env _ s reqID init initiatorPubKey
      (fun resp h => hret ⟨resp, h⟩)]
    exact habs

theorem aging_out_witness :
    passesChecks (toyEnv batch0) switch5 ⟨1, 5, [1], [2]⟩ [] [1] init4 ⟨3233, 17⟩ ∧
      switch5.Instances.get? 5 = some ⟨0, ⟨3233, 17⟩⟩ ∧
      switch5.InstanceInitTime.get? 5 = some 0 ∧
      (MaxInstanceTime + 1 - 0 > MaxInstanceTime) ∧
      (((switch5.InitInstance (toyEnv batch0) (fun _ => MaxInstanceTime + 1) 5
            ⟨1, 5, [1], [2]⟩ [] [1]).2.Instances.get? 5 = none ∧
          (switch5.InitInstance (toyEnv batch0) (fun _ => MaxInstanceTime + 1) 5
            ⟨1, 5, [1], [2]⟩ [] [1]).2.InstanceInitTime.get? 5 = none) ∨
        ((5 : InstanceID) = 5 ∧ ∃ resp inst,
          (switch5.InitInstance (toyEnv batch0) (fun _ => MaxInstanceTime + 1) 5
            ⟨1, 5, [1], [2]⟩ [] [1]).1 = .ret resp ∧
          switch5.CreateInstance (toyEnv batch0) 5 init4 ⟨3233, 17⟩ = .ret (inst, resp) ∧
          (switch5.InitInstance (toyEnv batch0) (fun _ => MaxInstanceTime + 1) 5
            ⟨1, 5, [1], [2]⟩ [] [1]).2.Instances.get? 5 = some inst ∧
          (switch5.InitInstance (toyEnv batch0) (fun _ => MaxInstanceTime + 1) 5
            ⟨1, 5, [1], [2]⟩ [] [1]).2.InstanceInitTime.get? 5
              = some (MaxInstanceTime + 1))) :=
  ⟨toy_passesChecks batch0 _ _ 5, by decide, by decide, by decide,
    aging_out (toyEnv batch0) switch5 (MaxInstanceTime + 1) 5 ⟨1, 5, [1], [2]⟩ [] [1] init4
      ⟨3233, 17⟩ 5 ⟨0, ⟨3233, 17⟩⟩ 0 (toy_passesChecks batch0 _ _ 5) (by decide) (by decide)
      (by decide) (Or.inr rfl)⟩

/-- C7 as stated fails: ceremony 5, created at time 0, is older than
`MaxInstanceTime` at time `MaxInstanceTime + 1`; an `InitInstance` call made
then for ceremony 9 succeeds, and ceremony 5 is still registered after it. -/
theorem aging_out_counterexample :
    switch5.Instances.get? 5 = some ⟨0, ⟨3233, 17⟩⟩ ∧
      switch5.InstanceInitTime.get? 5 = some 0 ∧
      (MaxInstanceTime + 1 - 0 > MaxInstanceTime) ∧
      (switch5.InitInstance (toyEnv batch0) (fun _ => MaxInstanceTime + 1) 9 initMsg9 []
        [1]).1 = .ret [7] ∧
      (switch5.InitInstance (toyEnv batch0) (fun _ => MaxInstanceTime + 1) 9 initMsg9 []
        [1]).2.Instances.get? 5 = some ⟨0, ⟨3233, 17⟩⟩ := by
  decide

/-- C10 (successful admission): when `InitInstance` at `now` returns `resp`
for ceremony `r`, the message passed the checks, `resp` and the instance now
under `r` are those that `CreateInstance` built, the init time of `r` is
`now`, and every other id that was registered with an age of at most
`MaxInstanceTime` still has its instance and its init time. -/
theorem admission_postcondition (env : Env LocalOwner) (s : Switch LocalOwner) (now : Time)
    (r : InstanceID) (initMsg : Transport) (initiatorPub initiatorSignature : Bytes)
    (resp : Bytes)
    (h : (s.InitInstance env (fun _ => now) r initMsg initiatorPub initiatorSignature).1
      = .ret resp) :
    ∃ init initiatorPubKey inst,
      passesChecks env s initMsg initiatorPub initiatorSignature init initiatorPubKey ∧
      s.CreateInstance env r init initiatorPubKey = .ret (inst, resp) ∧
      (s.InitInstance env (fun _ => now) r initMsg initiatorPub initiatorSignature).2.Instances.get?
        r = some inst ∧
      (s.InitInstance env (fun _ => now) r initMsg initiatorPub
        initiatorSignature).2.InstanceInitTime.get? r = some now ∧
      ∀ id i t, id ≠ r → s.Instances.get? id = some i → s.InstanceInitTime.get? id = some t →
        now - t ≤ MaxInstanceTime →
        (s.InitInstance env (fun _ => now) r initMsg initiatorPub
          initiatorSignature).2.Instances.get? id = some i ∧
        (s.InitInstance env (fun _ => now) r initMsg initiatorPub
          initiatorSignature).2.InstanceInitTime.get? id = some t := by
  obtain ⟨init, pk, hp⟩ := InitInstance_ret_passes env _ s r initMsg initiatorPub
    initiatorSignature resp h
  rw [InitInstance_of_passes env _ s r initMsg initiatorPub initiatorSignature init pk hp] at h ⊢
  obtain ⟨inst, _, hc, hsw⟩ := register_ret env _ s r init pk resp h
  obtain ⟨ids, hids, _⟩ := lockedSection_eq_deleteAll (fun _ => now) s r
  rw [hids, CreateInstance_deleteAll] at hc
  refine ⟨init, pk, inst, hp, hc, ?_, ?_, ?_⟩
  · rw [hsw]
    simp only [GoMap.get?_set, if_true]
  · rw [hsw]
    simp only [GoMap.get?_set, if_true]
  · intro id i t hne hi ht hage
    have hfr := lockedSection_frame now s r id hne (fun t' ht' hst => by
      rw [← get?_unique _ _ _ _ ht ht'] at hst
      exact absurd hage (not_le.2 hst))
    rw [hsw]
    simp only [GoMap.get?_set, if_neg hne]
    exact ⟨hfr.1.trans hi, hfr.2.trans ht⟩

theorem admission_postcondition_witness :
    (switch5.InitInstance (toyEnv batch0) (fun _ => 1) 9 initMsg9 [] [1]).1 = .ret [7] ∧
      ∃ init initiatorPubKey inst,
        passesChecks (toyEnv batch0) switch5 initMsg9 [] [1] init initiatorPubKey ∧
        switch5.CreateInstance (toyEnv batch0) 9 init initiatorPubKey = .ret (inst, [7]) ∧
        (switch5.InitInstance (toyEnv batch0) (fun _ => 1) 9 initMsg9 [] [1]).2.Instances.get? 9
          = some inst ∧
        (switch5.InitInstance (toyEnv batch0) (fun _ => 1) 9 initMsg9 []
          [1]).2.InstanceInitTime.get? 9 = some 1 ∧
        ∀ id i t, id ≠ 9 → switch5.Instances.get? id = some i →
          switch5.InstanceInitTime.get? id = some t → 1 - t ≤ MaxInstanceTime →
          (switch5.InitInstance (toyEnv batch0) (fun _ => 1) 9 initMsg9 []
            [1]).2.Instances.get? id = some i ∧
          (switch5.InitInstance (toyEnv batch0) (fun _ => 1) 9 initMsg9 []
            [1]).2.InstanceInitTime.get? id = some t :=
  ⟨by decide, admission_postcondition (toyEnv batch0) switch5 1 9 initMsg9 [] [1] [7]
    (by decide)⟩

/-- C8 (single initiator on the `/dkg` path): for a decoded batch,
`ProcessMessage` calls `Process` only on the instance registered under the
identifier of the batch, and only when the signature of the batch verifies,
under the `InitiatorPublicKey` of that instance, over the marshalled inner
messages joined in order. When that verification fails, `ProcessMessage`
returns an error, makes no call on the instance and leaves the switch as it
was. -/
theorem single_initiator (env : Env LocalOwner) (s : Switch LocalOwner) (dkgMsg : Bytes)
    (st : MultipleSignedTransports) (hdec : env.MultipleUnmarshalSSZ dkgMsg = .ok st) :
    (∀ id ts, Event.Process id ts ∈ (s.ProcessMessage env dkgMsg).2.2 →
      id = st.Identifier ∧ ∃ inst parts, s.Instances.get? st.Identifier = some inst ∧
        reserialized env st.Messages parts ∧
        env.VerifyRSA inst.InitiatorPublicKey parts.flatten st.Signature = none) ∧
    (∀ inst parts, s.Instances.get? st.Identifier = some inst →
      reserialized env st.Messages parts →
      env.VerifyRSA inst.InitiatorPublicKey parts.flatten st.Signature ≠ none →
      (∃ e, (s.ProcessMessage env dkgMsg).1 = .err (.pmVerify e)) ∧
        (s.ProcessMessage env dkgMsg).2.2 = [] ∧ (s.ProcessMessage env dkgMsg).2.1 = s) := by
  constructor
  · intro id ts h
    obtain ⟨hid, inst, parts, hget, hparts, hver⟩ :=
      ProcessMessage_trace env s dkgMsg st hdec id ts h
    exact ⟨hid, inst, parts, hget, hparts, verifyRSA_of_verified env inst _ _ hver⟩
  · intro inst parts hget hparts hbad
    obtain ⟨e, he⟩ := not_verified_of_verifyRSA env inst _ _ hbad
    have hm := marshalLoop_of_reserialized env st.Messages parts [] hparts
    rw [List.nil_append] at hm
    have hPM : s.ProcessMessage env dkgMsg = (.err (.pmVerify e), s, []) := by
      unfold Switch.ProcessMessage
      simp only [hdec, hget, hm, he]
    rw [hPM]
    exact ⟨⟨e, rfl⟩, rfl, rfl⟩

theorem single_initiator_witness :
    (toyEnv batchForged).MultipleUnmarshalSSZ [] = .ok batchForged ∧
      (∃ e, (switch5.ProcessMessage (toyEnv batchForged) []).1 = .err (.pmVerify e)) ∧
      (switch5.ProcessMessage (toyEnv batchForged) []).2.2 = [] ∧
      (switch5.ProcessMessage (toyEnv batchForged) []).2.1 = switch5 :=
  ⟨rfl, (single_initiator (toyEnv batchForged) switch5 [] batchForged rfl).2
    ⟨0, ⟨3233, 17⟩⟩ [[1], [2]] (by decide)
    (List.Forall₂.cons rfl (List.Forall₂.cons rfl List.Forall₂.nil)) (by decide)⟩

/-- C9 (batch order and abort): for a batch whose signature has been verified,
`ProcessMessage` calls `Process` on the inner messages in their order. If
`Process` first fails at place `k`, `ProcessMessage` returns the error, and
the calls made are exactly those on the first `k + 1` messages: none on a
later message and no read of the response channel. If all calls succeed, the
calls are followed by one read of the response channel, and `ProcessMessage`
returns the message read (it waits when the channel is empty). -/
theorem batch_order (env : Env LocalOwner) (s : Switch LocalOwner) (dkgMsg : Bytes)
    (st : MultipleSignedTransports) (inst : instWrapper LocalOwner) (parts : List Bytes)
    (hdec : env.MultipleUnmarshalSSZ dkgMsg = .ok st)
    (hget : s.Instances.get? st.Identifier = some inst)
    (hmar : reserialized env st.Messages parts)
    (hver : inst.VerifyInitiatorMessage env parts.flatten st.Signature = none) :
    (∀ k tsk e, st.Messages[k]? = some tsk →
      (∀ j ts, j < k → st.Messages[j]? = some ts →
        ((instAfter env inst (st.Messages.take j)).Process env ts).1 = none) →
      ((instAfter env inst (st.Messages.take k)).Process env tsk).1 = some e →
      (s.ProcessMessage env dkgMsg).1 = .err (.pmProcess e) ∧
        (s.ProcessMessage env dkgMsg).2.2
          = (st.Messages.take (k + 1)).map (Event.Process st.Identifier)) ∧
    ((∀ j ts, st.Messages[j]? = some ts →
        ((instAfter env inst (st.Messages.take j)).Process env ts).1 = none) →
      (s.ProcessMessage env dkgMsg).2.2
          = st.Messages.map (Event.Process st.Identifier)
            ++ [Event.ReadResponse st.Identifier] ∧
        (s.ProcessMessage env dkgMsg).1
          = match (instAfter env inst st.Messages).ReadResponse env with
            | some (resp, _) => .ret resp
            | none => .blocked) := by
  rw [ProcessMessage_of_verified env s dkgMsg st inst parts hdec hget hmar hver]
  constructor
  · intro k tsk e hk hbefore hfail
    rw [processLoop_fail env st.Identifier st.Messages inst [] k tsk e hk hbefore hfail]
    exact ⟨rfl, rfl⟩
  · intro hall
    rw [processLoop_all_ok env st.Identifier st.Messages inst [] hall]
    dsimp only
    split
    · rename_i hr
      rw [hr]
      exact ⟨rfl, rfl⟩
    · rename_i resp inst2 hr
      rw [hr]
      exact ⟨rfl, rfl⟩

theorem batch_order_witness :
    ((switch5.ProcessMessage (toyEnv batchFailing) []).1 = .err (.pmProcess "empty") ∧
        (switch5.ProcessMessage (toyEnv batchFailing) []).2.2
          = [Event.Process 5 msgA, Event.Process 5 msgEmpty]) ∧
      ((switch5.ProcessMessage (toyEnv batchGood) []).2.2
          = [Event.Process 5 msgA, Event.Process 5 msgB, Event.ReadResponse 5] ∧
        (switch5.ProcessMessage (toyEnv batchGood) []).1 = .ret [7]) :=
  ⟨(batch_order (toyEnv batchFailing) switch5 [] batchFailing ⟨0, ⟨3233, 17⟩⟩ [[1], [], [2]]
      rfl (by decide)
      (List.Forall₂.cons rfl (List.Forall₂.cons rfl (List.Forall₂.cons rfl List.Forall₂.nil)))
      rfl).1 1 msgEmpty "empty" rfl
      (fun j ts hj hts => by
        obtain rfl : j = 0 := by omega
        cases hts
        rfl)
      rfl,
    (batch_order (toyEnv batchGood) switch5 [] batchGood ⟨0, ⟨3233, 17⟩⟩ [[1], [2]]
      rfl (by decide)
      (List.Forall₂.cons rfl (List.Forall₂.cons rfl List.Forall₂.nil))
      rfl).2
      (fun j ts hts => by
        match j, hts with
        | 0, hts =>
          cases hts
          rfl
        | 1, hts =>
          cases hts
          rfl
        | j + 2, hts => cases hts)⟩

/-- C13 (destructive stale re-init): let `r` be registered with init time `t`
and `now ≥ t + MaxInstanceTime`. For an init message for `r` that passes the
version check, the validation and the signature check: when `InitInstance`
returns the error of a failed `CreateInstance`, `CreateInstance` did fail on
these arguments and `r` is afterwards in neither map. When `CreateInstance`
fails on these arguments, `InitInstance` returns an error: that of
`CreateInstance`, always so on a switch below `MaxInstances`, or
`ErrMaxInstances`, returned before `CreateInstance` is called. When instead
the signature check fails, `InitInstance` returns that error and the
switch, with the entry of `r`, is as it was. -/
theorem destructive_reinit (env : Env LocalOwner) (s : Switch LocalOwner) (now : Time)
    (r : InstanceID) (initMsg : Transport) (initiatorPub initiatorSignature : Bytes)
    (init : Init) (initiatorPubKey : RSAPublicKey) (inst : instWrapper LocalOwner) (t : Time)
    (hreg : s.Instances.get? r = some inst) (ht : s.InstanceInitTime.get? r = some t)
    (hnow : now ≥ t + MaxInstanceTime) :
    (passesChecks env s initMsg initiatorPub initiatorSignature init initiatorPubKey →
      (∀ e, (s.InitInstance env (fun _ => now) r initMsg initiatorPub initiatorSignature).1
          = .err (.initCreate e) →
        s.CreateInstance env r init initiatorPubKey = .err e ∧
        (s.InitInstance env (fun _ => now) r initMsg initiatorPub
          initiatorSignature).2.Instances.get? r = none ∧
        (s.InitInstance env (fun _ => now) r initMsg initiatorPub
          initiatorSignature).2.InstanceInitTime.get? r = none) ∧
      (∀ e, s.CreateInstance env r init initiatorPubKey = .err e →
        ((s.InitInstance env (fun _ => now) r initMsg initiatorPub initiatorSignature).1
            = .err (.initCreate e) ∨
          (s.InitInstance env (fun _ => now) r initMsg initiatorPub initiatorSignature).1
            = .err .ErrMaxInstances) ∧
        (s.Instances.len < MaxInstances →
          (s.InitInstance env (fun _ => now) r initMsg initiatorPub initiatorSignature).1
            = .err (.initCreate e)))) ∧
    (∀ marshalledWireMsg e, initMsg.Version = s.Version →
      env.InitUnmarshalSSZ initMsg.Data = .ok init →
      env.ValidateInitMessage init = none →
      env.ParseRSAPublicKey initiatorPub = .ok initiatorPubKey →
      env.TransportMarshalSSZ initMsg = .ok marshalledWireMsg →
      env.VerifyRSA initiatorPubKey marshalledWireMsg initiatorSignature = some e →
      (s.InitInstance env (fun _ => now) r initMsg initiatorPub initiatorSignature).1
          = .err (.initSignature e) ∧
        (s.InitInstance env (fun _ => now) r initMsg initiatorPub initiatorSignature).2 = s ∧
        (s.InitInstance env (fun _ => now) r initMsg initiatorPub
          initiatorSignature).2.Instances.get? r = some inst ∧
        (s.InitInstance env (fun _ => now) r initMsg initiatorPub
          initiatorSignature).2.InstanceInitTime.get? r = some t) := by
  have hnow' : t + MaxInstanceTime ≤ now := hnow
  constructor
  · intro hp
    rw [InitInstance_of_passes env _ s r initMsg initiatorPub initiatorSignature init
      initiatorPubKey hp]
    constructor
    · intro e he
      obtain ⟨hok, hc, hsw⟩ := register_create_err env _ s r init initiatorPubKey e he
      obtain ⟨ids, hids, _⟩ := lockedSection_eq_deleteAll (fun _ => now) s r
      have habs := lockedSection_expired now s r inst t hreg ht hnow' hok
      rw [hids, CreateInstance_deleteAll] at hc
      rw [hsw]
      exact ⟨hc, habs⟩
    · intro e hc
      constructor
      · rcases lockedSection_expired_cases now s r inst t hreg ht hnow' with hok | hmax
        · exact Or.inl (register_locked_none_create_err env _ s r init initiatorPubKey e hok hc)
        · exact Or.inr (register_locked_max env _ s r init initiatorPubKey hmax)
      · intro hlt
        exact register_expired_create_err env now s r init initiatorPubKey inst t e hreg ht
          hnow' hlt hc
  · intro bs e hver hun hval hpk hm hsig
    rw [InitInstance_signature_fails env _ s r initMsg initiatorPub initiatorSignature init
      initiatorPubKey bs e hver hun hval hpk hm hsig]
    exact ⟨rfl, rfl, hreg, ht⟩

theorem destructive_reinit_witness :
    switch5.Instances.get? 5 = some ⟨0, ⟨3233, 17⟩⟩ ∧
      switch5.InstanceInitTime.get? 5 = some 0 ∧
      MaxInstanceTime ≥ 0 + MaxInstanceTime ∧
      (switch5.InitInstance toyEnvWrongID (fun _ => MaxInstanceTime) 5 ⟨1, 5, [1], [2]⟩ []
        [1]).1 = .err (.initCreate "wrong operator ID") ∧
      (switch5.CreateInstance toyEnvWrongID 5 init4 ⟨3233, 17⟩ = .err "wrong operator ID" ∧
        (switch5.InitInstance toyEnvWrongID (fun _ => MaxInstanceTime) 5 ⟨1, 5, [1], [2]⟩ []
          [1]).2.Instances.get? 5 = none ∧
        (switch5.InitInstance toyEnvWrongID (fun _ => MaxInstanceTime) 5 ⟨1, 5, [1], [2]⟩ []
          [1]).2.InstanceInitTime.get? 5 = none) ∧
      ((switch5.InitInstance toyEnvWrongID (fun _ => MaxInstanceTime) 5 ⟨1, 5, [1], [2]⟩ []
          [9]).1 = .err (.initSignature "crypto/rsa: verification error") ∧
        (switch5.InitInstance toyEnvWrongID (fun _ => MaxInstanceTime) 5 ⟨1, 5, [1], [2]⟩ []
          [9]).2 = switch5 ∧
        (switch5.InitInstance toyEnvWrongID (fun _ => MaxInstanceTime) 5 ⟨1, 5, [1], [2]⟩ []
          [9]).2.Instances.get? 5 = some ⟨0, ⟨3233, 17⟩⟩ ∧
        (switch5.InitInstance toyEnvWrongID (fun _ => MaxInstanceTime) 5 ⟨1, 5, [1], [2]⟩ []
          [9]).2.InstanceInitTime.get? 5 = some 0) :=
  ⟨by decide, by decide, by decide, by decide,
    ((destructive_reinit toyEnvWrongID switch5 MaxInstanceTime 5 ⟨1, 5, [1], [2]⟩ [] [1] init4
      ⟨3233, 17⟩ ⟨0, ⟨3233, 17⟩⟩ 0 (by decide) (by decide) (by decide)).1
      ⟨rfl, rfl, rfl, rfl, [1], rfl, rfl⟩).1 "wrong operator ID" (by decide),
    (destructive_reinit toyEnvWrongID switch5 MaxInstanceTime 5 ⟨1, 5, [1], [2]⟩ [] [9] init4
      ⟨3233, 17⟩ ⟨0, ⟨3233, 17⟩⟩ 0 (by decide) (by decide) (by decide)).2
      [1] "crypto/rsa: verification error" rfl rfl rfl rfl rfl rfl⟩

/-- C11 (init validation decision table): for an init payload with 32-byte
withdrawal credentials, 4-byte fork and 20-byte owner, `ValidateInitMessage`
returns the error of the first failing check: `threshold set is invalid` when
the number of operators is not 4, 7, 10 or 13 (an empty list included, and
whatever the order of the operators); otherwise `operators not unique or not
ordered` when the operator ids are not strictly ascending; otherwise
`threshold set is invalid` when `T ≠ 2 * ((len - 1) / 3) + 1`; otherwise no
error. -/
theorem init_decision_table (init : Init)
    (hw : init.WithdrawalCredentials.length = 32) (hf : init.Fork.length = 4)
    (ho : init.Owner.length = 20) :
    (¬ (init.Operators.length = 4 ∨ init.Operators.length = 7 ∨ init.Operators.length = 10
        ∨ init.Operators.length = 13) →
      ValidateInitMessage init = some "threshold set is invalid") ∧
    ((init.Operators.length = 4 ∨ init.Operators.length = 7 ∨ init.Operators.length = 10
        ∨ init.Operators.length = 13) →
      (¬ List.Pairwise (· < ·) (init.Operators.map Operator.ID) →
        ValidateInitMessage init = some "operators not unique or not ordered") ∧
      (List.Pairwise (· < ·) (init.Operators.map Operator.ID) →
        (init.T ≠ 2 * ((init.Operators.length - 1) / 3) + 1 →
          ValidateInitMessage init = some "threshold set is invalid") ∧
        (init.T = 2 * ((init.Operators.length - 1) / 3) + 1 →
          ValidateInitMessage init = none))) := by
  refine ⟨?_, ?_⟩
  · intro hn
    have hc : ¬ validOperatorCount init.Operators.length = true :=
      fun h => hn ((validOperatorCount_iff _).1 h)
    unfold ValidateInitMessage
    rw [if_pos hc]
  · intro hn
    have hc : ¬ ¬ validOperatorCount init.Operators.length = true :=
      not_not.2 ((validOperatorCount_iff _).2 hn)
    refine ⟨?_, ?_⟩
    · intro hord
      have hu : ¬ UniqueAndOrderedOperators init.Operators = true :=
        fun h => hord ((UniqueAndOrderedOperators_iff _).1 h)
      unfold ValidateInitMessage
      rw [if_neg hc, if_pos hu]
    · intro hord
      have hu : ¬ ¬ UniqueAndOrderedOperators init.Operators = true :=
        not_not.2 ((UniqueAndOrderedOperators_iff _).2 hord)
      refine ⟨?_, ?_⟩
      · intro hT
        unfold ValidateInitMessage
        rw [if_neg hc, if_neg hu, if_pos hT]
      · intro hT
        unfold ValidateInitMessage
        rw [if_neg hc, if_neg hu, if_neg (not_not.2 hT), if_neg]
        rw [hw, hf, ho]
        simp

theorem init_decision_table_witness :
    (testInit (GenerateOperators 4) 3).WithdrawalCredentials.length = 32 ∧
      (testInit (GenerateOperators 4) 3).Fork.length = 4 ∧
      (testInit (GenerateOperators 4) 3).Owner.length = 20 ∧
      ValidateInitMessage (testInit (GenerateOperators 4) 3) = none :=
  ⟨by decide, by decide, by decide,
    (((init_decision_table (testInit (GenerateOperators 4) 3) (by decide) (by decide)
      (by decide)).2 (by decide)).2 (by decide)).2 (by decide)⟩

/-- C12 (result saving is authenticated), at the input where the code departs
from it: a result message for the registered ceremony 5, signed by its pinned
initiator, whose result data have empty deposit data, so that no withdrawal
prefix is parsed from them. The claim has `SaveResultData` return an error
there; the code returns no error: it panics on the nil `depJson`. The writer
is not called. -/
theorem save_result_unparsed_deposit_no_error :
    resultMsg.Message.Type_ = ResultMessageType ∧
      (toyResultEnv resultNoDeposit).ResultDataUnmarshalSSZ resultMsg.Message.Data
        = .ok resultNoDeposit ∧
      switch5.Instances.get? resultNoDeposit.Identifier = some ⟨0, ⟨3233, 17⟩⟩ ∧
      (toyEnv batch0).TransportMarshalSSZ resultMsg.Message = .ok [1] ∧
      (toyEnv batch0).VerifyRSA ⟨3233, 17⟩ [1] resultMsg.Signature = none ∧
      resultNoDeposit.DepositData = [] ∧
      (∀ e, switch5.SaveResultData (toyEnv batch0) (toyResultEnv resultNoDeposit) resultMsg
        "out" ≠ .err e) ∧
      (∀ args res, switch5.SaveResultData (toyEnv batch0) (toyResultEnv resultNoDeposit)
        resultMsg "out" ≠ .written args res) := by
  have hrun : switch5.SaveResultData (toyEnv batch0) (toyResultEnv resultNoDeposit) resultMsg
      "out" = .panic .nilDereference :=
    SaveResultData_no_deposit (toyEnv batch0) (toyResultEnv resultNoDeposit) switch5 resultMsg
      "out" resultNoDeposit 1 (some ⟨[⟨0, "0x00"⟩]⟩) [] rfl rfl rfl rfl rfl
  refine ⟨rfl, rfl, by decide, rfl, rfl, rfl, ?_, ?_⟩
  · intro e h
    rw [hrun] at h
    cases h
  · intro args res h
    rw [hrun] at h
    cases h

/-- C14 (`SaveResultData` is total on authenticated input), at the input where
the code departs from it: the result message `resultMsg` passes
`VerifyIncomingMessage`, its key shares and proofs parse, and its deposit
data are empty, so that their parsing is skipped; `SaveResultData` then does
not return: the read of `depJson.WithdrawalCredentials` goes through a nil
pointer. -/
theorem save_result_empty_deposit_panics :
    switch5.VerifyIncomingMessage (toyEnv batch0) (toyResultEnv resultNoDeposit) resultMsg
        = .ok 1 ∧
      resultNoDeposit.DepositData = [] ∧
      (toyResultEnv resultNoDeposit).UnmarshalKeyShares resultNoDeposit.KeysharesData
        = .ok (some ⟨[⟨0, "0x00"⟩]⟩) ∧
      (toyResultEnv resultNoDeposit).UnmarshalProofs resultNoDeposit.Proofs = .ok [] ∧
      switch5.SaveResultData (toyEnv batch0) (toyResultEnv resultNoDeposit) resultMsg "out"
        = .panic .nilDereference ∧
      switch5.SaveResultData (toyEnv batch0) (toyResultEnv resultFull) resultMsg "out"
        = .written
            { depositDataArr := [some ⟨"01"⟩]
              keySharesArr := [some ⟨[⟨0, "0x00"⟩]⟩]
              proofsArr := [[]]
              arg4 := true
              arg5 := 1
              ownerAddress := []
              ownerNonce := 0
              withdrawAddress := []
              outputPath := "out" } none := by
  refine ⟨rfl, rfl, rfl, rfl, ?_, by decide⟩
  decide

end Properties

end SsvDkg
